import Mathlib

/-!
# The Translation view of the English → Hindi translator front end

A shallow embedding of `src/pages/Translation.jsx`, of `translateText` and `getModels` from
`src/services/api.js`, of `login` from `src/context/AuthContext.jsx` and of
`handleExportCSV` from `src/pages/History.jsx`.

* JavaScript values are the inductive type `JSVal`; the operations the handlers use on them
  (truthiness, `||`, property reads, template-literal string conversion, relational
  comparison with a numeric literal) are total Lean functions.
* What the JavaScript engine supplies and the repository does not define (number formatting,
  parsing a string as a number, the wording of a `TypeError`) is the parameter `Host`.
* The React state of the component is the record `View`; every `setX(e)` is a record update.
* `handleTranslate` is an `async` function with one `await`.  It is embedded as the part that
  runs up to the `await` (`handleTranslate_begin`) and the part that runs once the awaited
  promise has settled (`handleTranslate_resume`); `handleTranslate` composes the two.
* What the component holds outside its React state (`recognitionRef`) and what it has done
  to the browser (sessions created and stopped, alerts, synthesis requests, object URLs,
  utterances) is the record `Page`.  The speech capture handlers and the two playback
  handlers are functions on `Page`; the events the browser dispatches afterwards
  (`result`, `error`, `end`, `ended`) are applications of the handler that was attached.
-/

namespace Translator

/-! ## Numbers -/

/-- A JavaScript number: `NaN`, the two infinities, or a finite value given by its exact
rational value (`+0` and `-0` are both `fin 0`; no operation used by the view separates them). -/
inductive JSNum where
  | nan
  | negInf
  | fin (q : ℚ)
  | posInf
  deriving DecidableEq

/-- Two to the power `k` for an integer exponent. -/
def pow2 (k : ℤ) : ℚ :=
  if 0 ≤ k then (2 : ℚ) ^ k.toNat else 1 / (2 : ℚ) ^ (-k).toNat

/-- Rounding of a positive rational to the nearest number with a 53-bit significand, ties to
even: the value an IEEE-754 binary64 literal denotes (normal range, which covers every
literal of the source). -/
def roundPos (q : ℚ) : ℚ :=
  let e0 : ℤ := (Nat.log2 q.num.toNat : ℤ) - (Nat.log2 q.den : ℤ)
  let e : ℤ := if pow2 e0 ≤ q then (if pow2 (e0 + 1) ≤ q then e0 + 1 else e0) else e0 - 1
  let ulp : ℚ := pow2 (e - 52)
  let m : ℚ := q / ulp
  let f : ℤ := Rat.floor m
  let r : ℚ := m - f
  let k : ℤ :=
    if r < 1 / 2 then f
    else if 1 / 2 < r then f + 1
    else if f % 2 = 0 then f else f + 1
  k * ulp

/-- The binary64 value of the decimal literal whose mathematical value is `q`. -/
def binary64 (q : ℚ) : ℚ :=
  if q = 0 then 0 else if q < 0 then -roundPos (-q) else roundPos q

namespace JSNum

/-- A numeric literal of the source, e.g. `0.7` is `lit (7 / 10)`. -/
def lit (q : ℚ) : JSNum := fin (binary64 q)

/-- The relation `x < y` on numbers: false as soon as one side is `NaN`. -/
def lt : JSNum → JSNum → Bool
  | nan, _ => false
  | _, nan => false
  | negInf, negInf => false
  | negInf, _ => true
  | fin _, negInf => false
  | fin a, fin b => decide (a < b)
  | fin _, posInf => true
  | posInf, _ => false

/-- The relation `x >= y` on numbers: false when one side is `NaN`, otherwise the negation of
`x < y`. -/
def ge : JSNum → JSNum → Bool
  | nan, _ => false
  | _, nan => false
  | x, y => !(lt x y)

end JSNum

/-! ## Values -/

/-- A JavaScript value as it can reach the view: `undefined`, or what a response body can
hold (JSON values; a non-JSON body arrives as a string).  An object is the list of its own
properties; reading a property takes the first entry with that key. -/
inductive JSVal where
  | undefined
  | null
  | bool (b : Bool)
  | num (x : JSNum)
  | str (s : String)
  | arr (items : List JSVal)
  | obj (fields : List (String × JSVal))

mutual
/-- Decision procedure for equality of values. -/
def JSVal.decEq : (a b : JSVal) → Decidable (a = b)
  | .undefined, .undefined => isTrue rfl
  | .null, .null => isTrue rfl
  | .bool a, .bool b =>
    if h : a = b then isTrue (by rw [h]) else isFalse (by intro e; cases e; exact h rfl)
  | .num a, .num b =>
    if h : a = b then isTrue (by rw [h]) else isFalse (by intro e; cases e; exact h rfl)
  | .str a, .str b =>
    if h : a = b then isTrue (by rw [h]) else isFalse (by intro e; cases e; exact h rfl)
  | .arr a, .arr b =>
    match JSVal.decEqList a b with
    | isTrue h => isTrue (by rw [h])
    | isFalse h => isFalse (by intro e; cases e; exact h rfl)
  | .obj a, .obj b =>
    match JSVal.decEqFields a b with
    | isTrue h => isTrue (by rw [h])
    | isFalse h => isFalse (by intro e; cases e; exact h rfl)
  | .undefined, .null | .undefined, .bool _ | .undefined, .num _ | .undefined, .str _
  | .undefined, .arr _ | .undefined, .obj _
  | .null, .undefined | .null, .bool _ | .null, .num _ | .null, .str _ | .null, .arr _
  | .null, .obj _
  | .bool _, .undefined | .bool _, .null | .bool _, .num _ | .bool _, .str _ | .bool _, .arr _
  | .bool _, .obj _
  | .num _, .undefined | .num _, .null | .num _, .bool _ | .num _, .str _ | .num _, .arr _
  | .num _, .obj _
  | .str _, .undefined | .str _, .null | .str _, .bool _ | .str _, .num _ | .str _, .arr _
  | .str _, .obj _
  | .arr _, .undefined | .arr _, .null | .arr _, .bool _ | .arr _, .num _ | .arr _, .str _
  | .arr _, .obj _
  | .obj _, .undefined | .obj _, .null | .obj _, .bool _ | .obj _, .num _ | .obj _, .str _
  | .obj _, .arr _ => isFalse (by intro e; cases e)
/-- Decision procedure for equality of arrays of values. -/
def JSVal.decEqList : (a b : List JSVal) → Decidable (a = b)
  | [], [] => isTrue rfl
  | [], _ :: _ | _ :: _, [] => isFalse (by intro e; cases e)
  | x :: xs, y :: ys =>
    match JSVal.decEq x y, JSVal.decEqList xs ys with
    | isTrue h, isTrue t => isTrue (by rw [h, t])
    | isFalse h, _ => isFalse (by intro e; cases e; exact h rfl)
    | _, isFalse t => isFalse (by intro e; cases e; exact t rfl)
/-- Decision procedure for equality of property lists. -/
def JSVal.decEqFields : (a b : List (String × JSVal)) → Decidable (a = b)
  | [], [] => isTrue rfl
  | [], _ :: _ | _ :: _, [] => isFalse (by intro e; cases e)
  | (k, x) :: xs, (l, y) :: ys =>
    if hk : k = l then
      match JSVal.decEq x y, JSVal.decEqFields xs ys with
      | isTrue h, isTrue t => isTrue (by rw [hk, h, t])
      | isFalse h, _ => isFalse (by intro e; cases e; exact h rfl)
      | _, isFalse t => isFalse (by intro e; cases e; exact t rfl)
    else isFalse (by intro e; cases e; exact hk rfl)
end

instance : DecidableEq JSVal := JSVal.decEq

/-- What the JavaScript engine provides and the repository does not define. -/
structure Host where
  /-- `Number.prototype.toString` in radix ten. -/
  numberToString : JSNum → String
  /-- The conversion of a string to a number (`ToNumber` on a string). -/
  stringToNumber : String → JSNum
  /-- The message of the `TypeError` raised by reading property `name` of `undefined` or
  `null`; its wording differs between engines. -/
  nullishReadMessage : JSVal → String → String
  /-- The message of the `TypeError` raised by calling the expression `callee` when its
  value is not a function. -/
  notFunctionMessage : String → String
  /-- Whether `window.SpeechRecognition || window.webkitSpeechRecognition` is truthy. -/
  speechRecognition : Bool
  /-- Whether the browser has speech synthesis (`SpeechSynthesisUtterance` and
  `window.speechSynthesis`). -/
  speechSynthesis : Bool

/-- The property names the handlers read.  None of them is defined on the prototype of a
string, number, boolean, array or plain object, so on those a read finds own properties only. -/
inductive Field where
  | error
  | translation
  | time_taken
  | model_used
  | bleu
  | meteor
  | message
  | models
  | english
  | hindi
  | model
  | timestamp
  deriving DecidableEq

/-- The JavaScript name of a property. -/
def Field.name : Field → String
  | .error => "error"
  | .translation => "translation"
  | .time_taken => "time_taken"
  | .model_used => "model_used"
  | .bleu => "bleu"
  | .meteor => "meteor"
  | .message => "message"
  | .models => "models"
  | .english => "english"
  | .hindi => "hindi"
  | .model => "model"
  | .timestamp => "timestamp"

namespace JSVal

/-- The conversion to boolean used by `!`, `||` and `if`. -/
def truthy : JSVal → Bool
  | undefined => false
  | null => false
  | bool b => b
  | num .nan => false
  | num (.fin q) => decide (q ≠ 0)
  | num _ => true
  | str s => decide (s ≠ "")
  | arr _ => true
  | obj _ => true

/-- The operator `a || b`. -/
def or (a b : JSVal) : JSVal := if truthy a then a else b

mutual
/-- The conversion to string performed by a template literal. -/
def toStr (h : Host) : JSVal → String
  | undefined => "undefined"
  | null => "null"
  | bool b => if b then "true" else "false"
  | num x => h.numberToString x
  | str s => s
  | arr items => joinItems h items
  | obj _ => "[object Object]"
/-- The text `Array.prototype.join` builds: the elements separated by commas, with
`undefined` and `null` elements contributing the empty string. -/
def joinItems (h : Host) : List JSVal → String
  | [] => ""
  | undefined :: rest => "" ++ (if rest.isEmpty then "" else ",") ++ joinItems h rest
  | null :: rest => "" ++ (if rest.isEmpty then "" else ",") ++ joinItems h rest
  | x :: rest => toStr h x ++ (if rest.isEmpty then "" else ",") ++ joinItems h rest
end

/-- The conversion to number applied to the left operand of `<` and `>=` when the right
operand is a number: an array or object is first converted to a string. -/
def toNumber (h : Host) : JSVal → JSNum
  | undefined => .nan
  | null => .fin 0
  | bool b => if b then .fin 1 else .fin 0
  | num x => x
  | str s => h.stringToNumber s
  | arr items => h.stringToNumber (toStr h (arr items))
  | obj fields => h.stringToNumber (toStr h (obj fields))

/-- The comparison `a < k` for a numeric literal `k`. -/
def ltNum (h : Host) (a : JSVal) (k : JSNum) : Bool := JSNum.lt (toNumber h a) k

/-- The comparison `a >= k` for a numeric literal `k`. -/
def geNum (h : Host) (a : JSVal) (k : JSNum) : Bool := JSNum.ge (toNumber h a) k

/-- A `TypeError` carrying the message `m`, as the object a `catch` clause receives. -/
def typeError (m : String) : JSVal := obj [("message", str m)]

/-- The property read `v.f`: throws a `TypeError` on `undefined` and `null`, finds the own
property on an object, and yields `undefined` on every other value. -/
def getProp (h : Host) (v : JSVal) (f : Field) : Except JSVal JSVal :=
  match v with
  | undefined => .error (typeError (h.nullishReadMessage undefined f.name))
  | null => .error (typeError (h.nullishReadMessage null f.name))
  | obj fields => .ok ((fields.lookup f.name).getD undefined)
  | _ => .ok undefined

/-- The own property `f` of a value, `undefined` when there is none: what the read `v.f`
yields whenever it does not throw. -/
def field (v : JSVal) (f : Field) : JSVal :=
  match v with
  | obj fields => (fields.lookup f.name).getD undefined
  | _ => undefined

end JSVal

/-! ## Strings -/

/-- The characters `String.prototype.trim` removes: ECMAScript white space and line
terminators. -/
def isJSWhitespace (c : Char) : Bool :=
  let n := c.toNat
  n = 0x09 || n = 0x0A || n = 0x0B || n = 0x0C || n = 0x0D || n = 0x20 || n = 0xA0 ||
  n = 0x1680 || (0x2000 ≤ n && n ≤ 0x200A) || n = 0x2028 || n = 0x2029 || n = 0x202F ||
  n = 0x205F || n = 0x3000 || n = 0xFEFF

/-- The method `String.prototype.trim`. -/
def jsTrim (s : String) : String :=
  ⟨((s.data.dropWhile isJSWhitespace).reverse.dropWhile isJSWhitespace).reverse⟩

/-! ## The component state -/

/-- The React state of the `Translation` component, one field per `useState`. -/
structure View where
  englishText : String
  hindiText : JSVal
  selectedModel : String
  models : List String
  loading : Bool
  timeTaken : JSVal
  recording : Bool
  bleuScore : JSVal
  meteorScore : JSVal
  modelUsed : JSVal
  playingAudio : Bool
  playingEnglish : Bool
  deriving DecidableEq

/-- The state of a freshly mounted component (the arguments of the `useState` calls). -/
def View.initial : View where
  englishText := ""
  hindiText := .str ""
  selectedModel := "nllb"
  models := []
  loading := false
  timeTaken := .num (.fin 0)
  recording := false
  bleuScore := .null
  meteorScore := .null
  modelUsed := .str ""
  playingAudio := false
  playingEnglish := false

/-! ## `api.js` -/

/-- A request `POST /translate?model=${model}` with body `{ text }`. -/
structure TranslateCall where
  text : String
  model : String
  deriving DecidableEq

/-- How the promise returned by `api.post` settles: fulfilled with a response whose `data`
property is `data`, or rejected (network failure, status outside 2xx) with `reason`. -/
inductive Outcome where
  | fulfilled (data : JSVal)
  | rejected (reason : JSVal)

/-- The function `translateText` after its `await`: returns `response.data`, or lets the
rejection propagate. -/
def translateText (o : Outcome) : Except JSVal JSVal :=
  match o with
  | .fulfilled data => .ok data
  | .rejected reason => .error reason

/-! ## `handleTranslate` -/

/-- Sequencing inside a `try` block: the read `r` either throws, leaving the state as it is
and handing the thrown value on, or yields a value to continue with. -/
def tryRead (r : Except JSVal JSVal) (v : View) (k : JSVal → View × Option JSVal) :
    View × Option JSVal :=
  match r with
  | .error e => (v, some e)
  | .ok x => k x

/-- The part of `handleTranslate` that runs synchronously, up to the `await`: the state it
leaves and the request it has issued, if any (`none`: it returned at the guard). -/
def handleTranslate_begin (v : View) : View × Option TranslateCall :=
  if !(JSVal.str (jsTrim v.englishText)).truthy then (v, none)
  else
    let call : TranslateCall := ⟨v.englishText, v.selectedModel⟩
    let v := { v with loading := true }
    let v := { v with hindiText := .str "" }
    let v := { v with bleuScore := .null }
    let v := { v with meteorScore := .null }
    (v, some call)

/-- The body of the `try` block after the `await`: the state it leaves and the value it
threw, if any.  `selectedModel` is the value captured by the closure when the handler was
invoked. -/
def handleTranslate_try (h : Host) (selectedModel : String) (o : Outcome) (v : View) :
    View × Option JSVal :=
  tryRead (translateText o) v fun result =>
  tryRead (result.getProp h .error) v fun error =>
  if error.truthy then
    ({ v with hindiText := .str ("Error: " ++ error.toStr h) }, none)
  else
    tryRead (result.getProp h .translation) v fun translation =>
    let v := { v with hindiText := translation.or (.str "") }
    tryRead (result.getProp h .time_taken) v fun time_taken =>
    let v := { v with timeTaken := time_taken.or (.num (.lit 0)) }
    tryRead (result.getProp h .model_used) v fun model_used =>
    let v := { v with modelUsed := model_used.or (.str selectedModel) }
    tryRead (result.getProp h .bleu) v fun bleu =>
    let v := if bleu ≠ .undefined then { v with bleuScore := bleu } else v
    tryRead (result.getProp h .meteor) v fun meteor =>
    let v := if meteor ≠ .undefined then { v with meteorScore := meteor } else v
    (v, none)

/-- The `catch` block: shows the message of the caught value. -/
def handleTranslate_catch (h : Host) (error : JSVal) (v : View) : View × Option JSVal :=
  tryRead (error.getProp h .message) v fun message =>
  ({ v with hindiText := .str ("Error: " ++ message.toStr h) }, none)

/-- The part of `handleTranslate` that runs once the awaited promise has settled with `o`,
from the state `v` the component is in at that moment: `try`, `catch`, `finally`.  The
second component is the exception that escapes the handler, if any. -/
def handleTranslate_resume (h : Host) (selectedModel : String) (o : Outcome) (v : View) :
    View × Option JSVal :=
  let afterTry := handleTranslate_try h selectedModel o v
  let afterCatch :=
    match afterTry.2 with
    | none => afterTry
    | some error => handleTranslate_catch h error afterTry.1
  ({ afterCatch.1 with loading := false }, afterCatch.2)

/-- The result of running a handler to completion. -/
structure Run where
  /-- The final state. -/
  view : View
  /-- The translate requests issued, in order. -/
  calls : List TranslateCall
  /-- The exception that escaped the handler, if any. -/
  escaped : Option JSVal

/-- One invocation of `handleTranslate` in state `v`, run to completion with the backend
call (if one is made) settling with `o` and no other event in between. -/
def handleTranslate (h : Host) (o : Outcome) (v : View) : Run :=
  match handleTranslate_begin v with
  | (v1, none) => ⟨v1, [], none⟩
  | (v1, some call) =>
    let r := handleTranslate_resume h call.model o v1
    ⟨r.1, [call], r.2⟩

/-! ## What the component renders -/

/-- The `disabled` attribute of the Translate button. -/
def translateDisabled (v : View) : Bool :=
  v.loading || !(JSVal.str (jsTrim v.englishText)).truthy

/-- A click on the Translate button: a disabled button dispatches no click, otherwise
`onClick` runs `handleTranslate`. -/
def clickTranslate (h : Host) (o : Outcome) (v : View) : Run :=
  if translateDisabled v then ⟨v, [], none⟩ else handleTranslate h o v

/-- The function `getScoreLabel`. -/
def getScoreLabel (h : Host) (score : JSVal) : String :=
  if score.geNum h (.lit (7 / 10)) then "Excellent"
  else if score.geNum h (.lit (4 / 10)) then "Good"
  else if score.geNum h (.lit (2 / 10)) then "Fair"
  else "Low"

/-- The text of the latency card: `timeTaken < 3 ? 'Fast' : timeTaken < 8 ? 'Moderate' :
'Slow'`. -/
def latencyLabel (h : Host) (timeTaken : JSVal) : String :=
  if timeTaken.ltNum h (.lit 3) then "Fast"
  else if timeTaken.ltNum h (.lit 8) then "Moderate"
  else "Slow"

/-- Whether the Live Metrics section is rendered. -/
def metricsShown (v : View) : Bool :=
  v.bleuScore ≠ .null || v.meteorScore ≠ .null

/-- The quality text of the BLEU card, `none` when the card is not rendered. -/
def bleuCard (h : Host) (v : View) : Option String :=
  if metricsShown v && v.bleuScore ≠ .null then some (getScoreLabel h v.bleuScore) else none

/-- The quality text of the METEOR card, `none` when the card is not rendered. -/
def meteorCard (h : Host) (v : View) : Option String :=
  if metricsShown v && v.meteorScore ≠ .null then some (getScoreLabel h v.meteorScore)
  else none

/-- The quality text of the latency card, `none` when the metrics section is not rendered. -/
def latencyCard (h : Host) (v : View) : Option String :=
  if metricsShown v then some (latencyLabel h v.timeTaken) else none

/-- The content of the output box when no request is loading: `hindiText || 'Translation
will appear here...'`. -/
def outputText (v : View) : JSVal :=
  v.hindiText.or (.str "Translation will appear here...")

/-! ## The page: the component and what it has done to the browser -/

/-- One entry of `event.results` of a recognition event: the transcript of its first
alternative (`event.results[i][0].transcript`) and its `isFinal` flag. -/
structure Segment where
  transcript : String
  isFinal : Bool
  deriving DecidableEq

/-- A `SpeechRecognition` object the component has created, as the browser sees it. -/
structure Session where
  /-- The method `start()` has been called. -/
  started : Bool
  /-- How many times `stop()` has been called. -/
  stopCalls : ℕ
  /-- The browser has dispatched the `end` event. -/
  ended : Bool
  deriving DecidableEq

/-- A `SpeechSynthesisUtterance` handed to `window.speechSynthesis.speak`. -/
structure Utterance where
  text : String
  lang : String
  rate : JSNum
  deriving DecidableEq

/-- The component beyond its React state: the ref it holds and the effects it has had on the
browser.  A recognition session is named by its position in `sessions`, an object URL by its
position in `objectUrls`. -/
structure Page where
  /-- The React state. -/
  view : View
  /-- The value of `recognitionRef.current`: `none` for `null`. -/
  recognitionRef : Option ℕ
  /-- The `SpeechRecognition` objects created, in order of creation. -/
  sessions : List Session
  /-- The texts shown with `alert`, in order. -/
  alerts : List String
  /-- The error codes written with `console.error` by the recognition error handler. -/
  consoleErrors : List String
  /-- The texts sent to `POST /tts`, in order. -/
  ttsRequests : List String
  /-- The object URLs created with `URL.createObjectURL`; `true` once revoked. -/
  objectUrls : List Bool
  /-- The utterances handed to the speech synthesiser, in order. -/
  utterances : List Utterance
  deriving DecidableEq

/-- The page of a freshly mounted component. -/
def Page.initial : Page where
  view := View.initial
  recognitionRef := none
  sessions := []
  alerts := []
  consoleErrors := []
  ttsRequests := []
  objectUrls := []
  utterances := []

/-! ## Speech capture -/

/-- The loop of `recognition.onresult` over `event.results`, from the values the two
accumulators `(finalTranscript, interimTranscript)` hold on entry. -/
def collectTranscripts : List Segment → String × String → String × String
  | [], acc => acc
  | seg :: rest, (finalTranscript, interimTranscript) =>
    if seg.isFinal then
      collectTranscripts rest (finalTranscript ++ seg.transcript, interimTranscript)
    else
      collectTranscripts rest (finalTranscript, interimTranscript ++ seg.transcript)

/-- The handler `recognition.onresult`:
`setEnglishText(finalTranscript || interimTranscript)`. -/
def recognition_onresult (results : List Segment) (p : Page) : Page :=
  let acc := collectTranscripts results ("", "")
  let finalTranscript := acc.1
  let interimTranscript := acc.2
  { p with view := { p.view with
      englishText :=
        if (JSVal.str finalTranscript).truthy then finalTranscript else interimTranscript } }

/-- The handler `recognition.onerror` for an event whose `error` is `code`. -/
def recognition_onerror (code : String) (p : Page) : Page :=
  let p := { p with consoleErrors := p.consoleErrors ++ [code] }
  let p := { p with view := { p.view with recording := false } }
  if code = "not-allowed" then
    { p with alerts :=
        p.alerts ++ ["Microphone access denied. Please allow microphone permissions."] }
  else p

/-- The handler `recognition.onend`. -/
def recognition_onend (p : Page) : Page :=
  { p with view := { p.view with recording := false } }

/-- The call `recognition.stop()` on the session at position `id`. -/
def callStop (id : ℕ) : List Session → List Session
  | [] => []
  | s :: rest =>
    match id with
    | 0 => { s with stopCalls := s.stopCalls + 1 } :: rest
    | n + 1 => s :: callStop n rest

/-- The call `recognition.start()` on the session at position `id`. -/
def callStart (id : ℕ) : List Session → List Session
  | [] => []
  | s :: rest =>
    match id with
    | 0 => { s with started := true } :: rest
    | n + 1 => s :: callStart n rest

/-- The function `startRecording`: without the capability an alert and nothing else;
otherwise a new `SpeechRecognition` object is created, its handlers are set, it is started,
stored in `recognitionRef.current`, and `recording` is set. -/
def startRecording (h : Host) (p : Page) : Page :=
  if !h.speechRecognition then
    { p with alerts := p.alerts ++
        ["Speech recognition is not supported in this browser. Please use Chrome or Edge."] }
  else
    let recognition := p.sessions.length
    let p := { p with sessions := p.sessions ++ [Session.mk false 0 false] }
    let p := { p with sessions := callStart recognition p.sessions }
    let p := { p with recognitionRef := some recognition }
    { p with view := { p.view with recording := true } }

/-- The function `stopRecording`. -/
def stopRecording (p : Page) : Page :=
  let p :=
    match p.recognitionRef with
    | some recognition =>
      let p := { p with sessions := callStop recognition p.sessions }
      { p with recognitionRef := none }
    | none => p
  { p with view := { p.view with recording := false } }

/-- The function `toggleRecording`. -/
def toggleRecording (h : Host) (p : Page) : Page :=
  if p.view.recording then stopRecording p else startRecording h p

/-- What can happen to the speech capture controller: a click on the microphone button, or
an event dispatched by the browser on the session at position `id`. -/
inductive RecEvent where
  | toggle
  | result (id : ℕ) (results : List Segment)
  | error (id : ℕ) (code : String)
  | ended (id : ℕ)

/-- A session dispatches events from its `start()` until its `end` event; a call of
`stop()` does not silence it (the browser still returns a final result and then ends it). -/
def Page.dispatches (p : Page) (id : ℕ) : Bool :=
  match p.sessions.get? id with
  | some s => s.started && !s.ended
  | none => false

/-- The browser records that the session at position `id` has ended. -/
def markEnded (id : ℕ) : List Session → List Session
  | [] => []
  | s :: rest =>
    match id with
    | 0 => { s with ended := true } :: rest
    | n + 1 => s :: markEnded n rest

/-- One event of the capture controller; `none` when the browser cannot dispatch it. -/
def recStep (h : Host) (p : Page) : RecEvent → Option Page
  | .toggle => some (toggleRecording h p)
  | .result id results =>
    if p.dispatches id then some (recognition_onresult results p) else none
  | .error id code =>
    if p.dispatches id then some (recognition_onerror code p) else none
  | .ended id =>
    if p.dispatches id then
      some (recognition_onend { p with sessions := markEnded id p.sessions })
    else none

/-- A sequence of events of the capture controller, in order. -/
def recRun (h : Host) : List RecEvent → Page → Option Page
  | [], p => some p
  | e :: rest, p =>
    match recStep h p e with
    | some q => recRun h rest q
    | none => none

/-- The sessions that have been started and have neither been stopped nor ended. -/
def activeSessions (p : Page) : List Session :=
  p.sessions.filter fun s => s.started && s.stopCalls = 0 && !s.ended

/-- The total number of `stop()` calls made on capture streams. -/
def stopCallCount (p : Page) : ℕ :=
  (p.sessions.map Session.stopCalls).sum

/-- The in-order concatenation of the transcripts of the final segments of an event. -/
def finalText (results : List Segment) : String :=
  String.join ((results.filter fun s => s.isFinal).map Segment.transcript)

/-- The in-order concatenation of the transcripts of the interim segments of an event. -/
def interimText (results : List Segment) : String :=
  String.join ((results.filter fun s => !s.isFinal).map Segment.transcript)

/-! ## Audio playback -/

/-- How the promise returned by `textToSpeech` settles: fulfilled with the audio blob, or
rejected with `reason`. -/
inductive TtsOutcome where
  | fulfilled
  | rejected (reason : JSVal)

/-- The value thrown by `value.trim()` when `value` is not a string. -/
def trimError (h : Host) (callee : String) (value : JSVal) : JSVal :=
  match value with
  | .undefined => JSVal.typeError (h.nullishReadMessage .undefined "trim")
  | .null => JSVal.typeError (h.nullishReadMessage .null "trim")
  | _ => JSVal.typeError (h.notFunctionMessage (callee ++ ".trim"))

/-- The part of `handlePlayAudio` that runs up to the `await`: the page it leaves, the text
whose synthesis it has requested (`none`: no request), and the exception that escaped, if
any (`hindiText.trim()` is evaluated before the `try`). -/
def handlePlayAudio_begin (h : Host) (p : Page) : Page × Option String × Option JSVal :=
  match p.view.hindiText with
  | .str hindiText =>
    if !(JSVal.str (jsTrim hindiText)).truthy || p.view.playingAudio then (p, none, none)
    else
      let p := { p with view := { p.view with playingAudio := true } }
      ({ p with ttsRequests := p.ttsRequests ++ [hindiText] }, some hindiText, none)
  | other => (p, none, some (trimError h "hindiText" other))

/-- The part of `handlePlayAudio` that runs once `textToSpeech` has settled.  On a blob:
an object URL is created, an `Audio` element is built on it with its two handlers, and
`audio.play()` is called; the promise `play()` returns is dropped.  On a rejection: the
`catch` block.  The second component is the exception that escapes, if any. -/
def handlePlayAudio_resume (h : Host) (o : TtsOutcome) (p : Page) : Page × Option JSVal :=
  match o with
  | .fulfilled => ({ p with objectUrls := p.objectUrls ++ [false] }, none)
  | .rejected error =>
    let p := { p with view := { p.view with playingAudio := false } }
    match error.getProp h .message with
    | .error e => (p, some e)
    | .ok message =>
      ({ p with alerts := p.alerts ++ ["Error playing audio: " ++ message.toStr h] }, none)

/-- The call `URL.revokeObjectURL` on the URL at position `url`. -/
def revokeObjectURL (url : ℕ) (p : Page) : Page :=
  { p with objectUrls := p.objectUrls.set url true }

/-- The handler `audio.onended` of the element built on the URL at position `audioUrl`. -/
def audio_onended (audioUrl : ℕ) (p : Page) : Page :=
  let p := { p with view := { p.view with playingAudio := false } }
  revokeObjectURL audioUrl p

/-- The handler `audio.onerror` of the element built on the URL at position `audioUrl`. -/
def audio_onerror (audioUrl : ℕ) (p : Page) : Page :=
  let p := { p with view := { p.view with playingAudio := false } }
  revokeObjectURL audioUrl p

/-- How a playback that `audio.play()` has been called for comes to its end. -/
inductive PlaybackOutcome where
  /-- The audio played to its end: the `ended` event. -/
  | ended
  /-- The media could not be loaded or decoded: the `error` event. -/
  | error
  /-- The promise returned by `audio.play()` is rejected and no event is dispatched (for
  instance `NotAllowedError`, playback refused by the autoplay policy). -/
  | playRejected

/-- The code of the component that runs when a playback comes to its end.  No handler is
attached to the promise returned by `audio.play()`, and its rejection comes after the
`try` block has been left, so nothing runs for it. -/
def playbackDelivered (audioUrl : ℕ) (o : PlaybackOutcome) (p : Page) : Page :=
  match o with
  | .ended => audio_onended audioUrl p
  | .error => audio_onerror audioUrl p
  | .playRejected => p

/-- The function `handlePlayEnglish`; the `catch` block runs when the browser has no speech
synthesis. -/
def handlePlayEnglish (h : Host) (p : Page) : Page :=
  if !(JSVal.str (jsTrim p.view.englishText)).truthy || p.view.playingEnglish then p
  else
    let p := { p with view := { p.view with playingEnglish := true } }
    if h.speechSynthesis then
      { p with utterances :=
          p.utterances ++ [Utterance.mk p.view.englishText "en-US" (.lit (9 / 10))] }
    else
      let p := { p with view := { p.view with playingEnglish := false } }
      { p with alerts := p.alerts ++ ["Speech synthesis not supported in this browser."] }

/-- The handler `utterance.onend`. -/
def utterance_onend (p : Page) : Page :=
  { p with view := { p.view with playingEnglish := false } }

/-- The handler `utterance.onerror`. -/
def utterance_onerror (p : Page) : Page :=
  { p with view := { p.view with playingEnglish := false } }

/-! ## Setting the playback flags -/

/-- The view with its two playback flags set to `a` and `b`. -/
def View.withPlayback (a b : Bool) (v : View) : View :=
  { v with playingAudio := a, playingEnglish := b }

/-- The page with `playingAudio` set to `a`. -/
def Page.withPlayingAudio (a : Bool) (p : Page) : Page :=
  { p with view := { p.view with playingAudio := a } }

/-- The page with `playingEnglish` set to `b`. -/
def Page.withPlayingEnglish (b : Bool) (p : Page) : Page :=
  { p with view := { p.view with playingEnglish := b } }

/-! ## The model list and the model selector -/

/-- The number of UTF-16 code units of a string, its JavaScript `length`. -/
def utf16Length (s : String) : ℕ :=
  (s.data.map fun c => if c.toNat < 0x10000 then 1 else 2).sum

/-- The function `Object.keys` on a value that is neither `undefined` nor `null` (it is
applied to `data.models || {}`, which is truthy): the own property names of an object, in
the order of its property list and each once; the indices of an array or of a string;
nothing for a number or a boolean. -/
def objectKeys : JSVal → List String
  | .obj fields => (fields.map Prod.fst).eraseDups
  | .arr items => (List.range items.length).map toString
  | .str s => (List.range (utf16Length s)).map toString
  | _ => []

/-- The function `getModels` of `api.js` after its `await`: returns `response.data`, or
lets the rejection propagate. -/
def getModels (o : Outcome) : Except JSVal JSVal :=
  match o with
  | .fulfilled data => .ok data
  | .rejected reason => .error reason

/-- The function `loadModels` once the promise of `getModels` has settled with `o`:
`setModels(Object.keys(data.models || {}))`; the `catch` block writes to the console and
leaves the state as it is. -/
def loadModels_resume (h : Host) (o : Outcome) (v : View) : View :=
  match getModels o with
  | .error _ => v
  | .ok data =>
    match data.getProp h .models with
    | .error _ => v
    | .ok models => { v with models := objectKeys (models.or (.obj [])) }

/-- What the user does with the translation form. -/
inductive UiEvent where
  /-- An edit of the text area: `setEnglishText(e.target.value)`. -/
  | edit (text : String)
  /-- A change of the model selector to the option `model`:
  `setSelectedModel(e.target.value)`. -/
  | select (model : String)
  /-- A click on the Translate button, the backend call (if made) settling with `o`. -/
  | translate (o : Outcome)

/-- One event of the translation form with the requests it issues; `none` when the page
cannot produce the event: the selector offers one option per entry of `models`, so a change
event carries one of them. -/
def uiStep (h : Host) (v : View) : UiEvent → Option (View × List TranslateCall)
  | .edit text => some ({ v with englishText := text }, [])
  | .select model =>
    if model ∈ v.models then some ({ v with selectedModel := model }, []) else none
  | .translate o => some ((clickTranslate h o v).view, (clickTranslate h o v).calls)

/-- A sequence of events of the translation form, with the requests issued, in order. -/
def uiRun (h : Host) : List UiEvent → View → Option (View × List TranslateCall)
  | [], v => some (v, [])
  | e :: rest, v =>
    match uiStep h v e with
    | none => none
    | some (v1, calls) =>
      match uiRun h rest v1 with
      | none => none
      | some (v2, more) => some (v2, calls ++ more)

/-- The life of a mounted `Translation` component: `loadModels` is called once, on mount;
the events `before` happen while its request is pending, then the request settles with
`models`, then the events `after` happen.  The result is the list of translate requests
issued. -/
def formSession (h : Host) (before : List UiEvent) (models : Outcome)
    (after : List UiEvent) : Option (List TranslateCall) :=
  match uiRun h before View.initial with
  | none => none
  | some (v1, calls) =>
    match uiRun h after (loadModels_resume h models v1) with
    | none => none
    | some (_, more) => some (calls ++ more)

/-- The model ids the backend supplies with the response `models` of `GET /models`, as the
component stores them. -/
def suppliedModels (h : Host) (models : Outcome) : List String :=
  (loadModels_resume h models View.initial).models

/-- The render condition of the stats row: `timeTaken > 0`. -/
def statsShown (h : Host) (v : View) : Bool :=
  JSNum.lt (.lit 0) (v.timeTaken.toNumber h)

/-! ## Strings: `split`, `includes`, `join` -/

/-- The scan of `String.prototype.split` for a non-empty separator `sep`, on characters:
`skip` is the number of characters of a matched separator still to pass over, `acc` holds
the characters of the current piece in reverse. -/
def splitGo (sep : List Char) : List Char → ℕ → List Char → List (List Char)
  | [], _, acc => [acc.reverse]
  | _ :: cs, skip + 1, acc => splitGo sep cs skip acc
  | c :: cs, 0, acc =>
    if sep.isPrefixOf (c :: cs) then acc.reverse :: splitGo sep cs (sep.length - 1) []
    else splitGo sep cs 0 (c :: acc)

/-- The method `String.prototype.split` with a non-empty string separator. -/
def jsSplit (sep s : String) : List String :=
  (splitGo sep.data s.data 0 []).map String.mk

/-- The method `String.prototype.includes`. -/
def jsIncludes (s sub : String) : Bool :=
  s.data.tails.any fun t => sub.data.isPrefixOf t

/-- The method `Array.prototype.join` on an array of strings. -/
def jsJoin (sep : String) : List String → String
  | [] => ""
  | [x] => x
  | x :: y :: rest => x ++ sep ++ jsJoin sep (y :: rest)

/-! ## `AuthContext.jsx` -/

/-- The user object the authentication stub fabricates. -/
structure User where
  email : String
  name : String
  role : String
  deriving DecidableEq

/-- The state of `AuthProvider`: its two React states and the `user` entry of local storage
(the object its JSON text denotes). -/
structure AuthState where
  user : Option User
  isAuthenticated : Bool
  stored : Option User
  deriving DecidableEq

/-- How the promise a function of the provider returns has settled. -/
inductive Settled where
  | resolved (userData : User)
  | rejected (reason : JSVal)
  deriving DecidableEq

/-- The function `login`: the state after `setUser(userData)` and the promise it returns. -/
def login (email : String) (_password : JSVal) (s : AuthState) : AuthState × Settled :=
  let userData : User :=
    { email := email
      name := (jsSplit "@" email).headD ""
      role := if jsIncludes email "mentor" || jsIncludes email "admin" then "mentor"
        else "user" }
  ({ s with user := some userData }, .resolved userData)

/-- The effect that runs after a render in which `user` has changed. -/
def userEffect (s : AuthState) : AuthState :=
  match s.user with
  | some user => { s with stored := some user, isAuthenticated := true }
  | none => { s with stored := none, isAuthenticated := false }

/-! ## `History.jsx` -/

/-- What one click on Export CSV has done. -/
structure Export where
  /-- The texts shown with `alert`. -/
  alerts : List String
  /-- The files offered for download: name and content. -/
  downloads : List (String × String)
  /-- The exception that escaped the handler, if any. -/
  escaped : Option JSVal

/-- The five cells of the row of a history item, as values:
`[item.english, item.hindi, item.model, item.time_taken, item.timestamp]`. -/
def historyRow (h : Host) (item : JSVal) : Except JSVal (List JSVal) := do
  let english ← item.getProp h .english
  let hindi ← item.getProp h .hindi
  let model ← item.getProp h .model
  let time_taken ← item.getProp h .time_taken
  let timestamp ← item.getProp h .timestamp
  pure [english, hindi, model, time_taken, timestamp]

/-- The array `history.map(item => [...])`. -/
def historyRows (h : Host) : List JSVal → Except JSVal (List (List JSVal))
  | [] => .ok []
  | item :: rest =>
    match historyRow h item with
    | .error e => .error e
    | .ok row =>
      match historyRows h rest with
      | .error e => .error e
      | .ok rows => .ok (row :: rows)

/-- The text of one row: ``row.map(cell => `"${cell}"`).join(',')``. -/
def csvLine (h : Host) (row : List JSVal) : String :=
  jsJoin "," (row.map fun cell => "\"" ++ cell.toStr h ++ "\"")

/-- The header row of the exported file. -/
def csvHeader : List JSVal :=
  [.str "English", .str "Hindi", .str "Model", .str "Time (s)", .str "Date"]

/-- The CSV text `handleExportCSV` builds from a table of cells. -/
def csvText (h : Host) (rows : List (List JSVal)) : String :=
  jsJoin "\n" ((csvHeader :: rows).map (csvLine h))

/-- The function `handleExportCSV` for the history list `history`; `now` is the text
`new Date().toISOString()` gives when it runs. -/
def handleExportCSV (h : Host) (now : String) (history : List JSVal) : Export :=
  if history.length = 0 then ⟨["No history to export"], [], none⟩
  else
    match historyRows h history with
    | .error e => ⟨[], [], some e⟩
    | .ok rows =>
      ⟨[], [("translation_history_" ++ (jsSplit "T" now).headD "" ++ ".csv",
        csvText h rows)], none⟩

/-- Reading a CSV text back: the text is split on newlines; each line loses its first and
its last character (the outer quotes) and is split on the separator `","`. -/
def readCsv (text : String) : List (List String) :=
  (jsSplit "\n" text).map fun line =>
    jsSplit "\",\"" (String.mk ((line.data.drop 1).dropLast))

/-! ## Notions used to state the properties -/

/-- The part of `s` before its first `c`, the whole of `s` when it has none. -/
def beforeFirst (c : Char) (s : String) : String :=
  ⟨s.data.takeWhile fun x => x ≠ c⟩

/-- The string `s` contains `sub` as a substring. -/
def ContainsSubstring (s sub : String) : Prop :=
  ∃ before after : String, s = before ++ sub ++ after

/-- The five fields of a history item, as the texts a template literal gives them. -/
def historyCells (h : Host) (item : JSVal) : List String :=
  [(item.field .english).toStr h, (item.field .hindi).toStr h, (item.field .model).toStr h,
    (item.field .time_taken).toStr h, (item.field .timestamp).toStr h]

/-- A cell wrapped in double quotes. -/
def quoted (cell : String) : String :=
  "\"" ++ cell ++ "\""

/-! ## Concrete inputs -/

/-- A host for evaluating the handlers on concrete inputs: the `TypeError` wording is the
one of an engine that names the variable; number formatting and parsing are not exercised by
the inputs below and are left constant. -/
def stubHost : Host where
  numberToString := fun _ => "NaN"
  stringToNumber := fun _ => .nan
  nullishReadMessage := fun v _ =>
    match v with
    | .null => "result is null"
    | _ => "result is undefined"
  notFunctionMessage := fun callee => callee ++ " is not a function"
  speechRecognition := true
  speechSynthesis := true

/-- A browser without speech recognition and without speech synthesis. -/
def silentHost : Host :=
  { stubHost with speechRecognition := false, speechSynthesis := false }

/-- The stubbed success response of the end-to-end scenario. -/
def stubResponse : JSVal :=
  .obj [("translation", .str "नमस्ते दुनिया"), ("time_taken", .num (.lit (12 / 10))),
    ("model_used", .str "nllb"), ("bleu", .num (.lit (82 / 100))),
    ("meteor", .num (.lit (75 / 100)))]

/-- The stubbed error response of the end-to-end scenario. -/
def stubErrorResponse : JSVal :=
  .obj [("error", .str "model unavailable")]

/-- A fresh view in which the user has typed `Hello world`. -/
def helloView : View :=
  { View.initial with englishText := "Hello world" }

/-- A view that shows the result of an earlier translation: text, time, model and both
scores. -/
def shownView : View :=
  { View.initial with
      englishText := "Good morning"
      hindiText := .str "शुभ प्रभात"
      timeTaken := .num (.lit (12 / 10))
      modelUsed := .str "m2m"
      bleuScore := .num (.lit (82 / 100))
      meteorScore := .num (.lit (75 / 100)) }

/-- A rejection as `axios` produces it: an error object with a message. -/
def networkError : JSVal :=
  .obj [("message", .str "Network Error")]

/-- A success response that carries a translation and nothing else: `time_taken`,
`model_used`, `bleu` and `meteor` are omitted. -/
def timelessResponse : JSVal :=
  .obj [("translation", .str "नमस्ते")]

/-- A 2xx response whose body is not JSON; `axios` hands it over as a string. -/
def htmlBody : JSVal :=
  .str "<!doctype html><title>App</title>"

/-- A recognition event with one final segment whose transcript is empty, followed by an
interim segment. -/
def emptyFinalEvent : List Segment :=
  [Segment.mk "" true, Segment.mk "hel" false]

/-- The page after the microphone button has been clicked once on a fresh page: session 0
is capturing. -/
def recordingPage : Page :=
  startRecording stubHost Page.initial

/-- The page `recordingPage` after a recognition event that carries one interim segment. -/
def interimPage : Page :=
  recognition_onresult [Segment.mk "hel" false] recordingPage

/-- A page that shows the result of an earlier translation and plays nothing. -/
def shownPage : Page :=
  { Page.initial with view := shownView }

/-- The page `shownPage` after Play Audio has been clicked and the synthesised audio has
arrived: `audio.play()` has been called on object URL 0. -/
def playingPage : Page :=
  (handlePlayAudio_resume stubHost .fulfilled (handlePlayAudio_begin stubHost shownPage).1).1

/-- An entry of the history log as the backend returns it. -/
def historyItem : JSVal :=
  .obj [("english", .str "Good morning"), ("hindi", .str "शुभ प्रभात"), ("model", .str "nllb"),
    ("time_taken", .str "1.2"), ("timestamp", .str "2026-11-06 10:15:00")]

/-- A response of `GET /models` that supplies the single model `m2m`. -/
def m2mOnly : JSVal :=
  .obj [("models", .obj [("m2m", .obj [])])]

/-- The position of a band in the order `Low < Fair < Good < Excellent`. -/
def bandRank (band : String) : ℕ :=
  if band = "Excellent" then 3
  else if band = "Good" then 2
  else if band = "Fair" then 1
  else 0

/-! ## Basic facts about the embedding -/

theorem jsTrim_eq_empty_iff (s : String) :
    jsTrim s = "" ↔ ∀ c ∈ s.data, isJSWhitespace c = true := by
  unfold jsTrim
  constructor
  · intro hs
    have h1 : ((s.data.dropWhile isJSWhitespace).reverse.dropWhile isJSWhitespace).reverse
        = [] := congrArg String.data hs
    rw [List.reverse_eq_nil_iff, List.dropWhile_eq_nil_iff] at h1
    intro c hc
    by_cases hd : s.data.dropWhile isJSWhitespace = []
    · exact (List.dropWhile_eq_nil_iff.mp hd) c hc
    · obtain ⟨x, xs, hx⟩ := List.exists_cons_of_ne_nil hd
      have hmem : x ∈ (s.data.dropWhile isJSWhitespace).reverse := by simp [hx]
      have hw := h1 x hmem
      have hnw := List.head_dropWhile_not isJSWhitespace s.data hd
      simp [hx] at hnw
      simp [hnw] at hw
  · intro hall
    have hd : s.data.dropWhile isJSWhitespace = [] := List.dropWhile_eq_nil_iff.mpr hall
    simp [hd]

theorem handleTranslate_begin_blank (v : View) (hb : jsTrim v.englishText = "") :
    handleTranslate_begin v = (v, none) := by
  simp [handleTranslate_begin, JSVal.truthy, hb]

theorem handleTranslate_begin_nonblank (v : View) (hne : jsTrim v.englishText ≠ "") :
    handleTranslate_begin v =
      ({ v with loading := true, hindiText := .str "", bleuScore := .null,
                meteorScore := .null }, some ⟨v.englishText, v.selectedModel⟩) := by
  simp [handleTranslate_begin, JSVal.truthy, hne]

theorem getProp_of_ok (h : Host) (v : JSVal) (f g : Field) (x : JSVal)
    (hx : v.getProp h f = .ok x) : v.getProp h g = .ok (v.field g) := by
  cases v <;> simp [JSVal.getProp, JSVal.field] at hx ⊢

theorem field_of_ok (h : Host) (v : JSVal) (f : Field) (x : JSVal)
    (hx : v.getProp h f = .ok x) : v.field f = x := by
  cases v <;> simp [JSVal.getProp, JSVal.field] at hx ⊢ <;> exact hx

theorem handleTranslate_resume_rejected (h : Host) (sel : String) (e m : JSVal) (v : View)
    (hm : e.getProp h .message = .ok m) :
    handleTranslate_resume h sel (.rejected e) v =
      ({ v with hindiText := .str ("Error: " ++ m.toStr h), loading := false }, none) := by
  simp [handleTranslate_resume, handleTranslate_try, handleTranslate_catch, translateText,
    tryRead, hm]

theorem handleTranslate_resume_error (h : Host) (sel : String) (data err : JSVal) (v : View)
    (he : data.getProp h .error = .ok err) (ht : err.truthy = true) :
    handleTranslate_resume h sel (.fulfilled data) v =
      ({ v with hindiText := .str ("Error: " ++ err.toStr h), loading := false }, none) := by
  simp [handleTranslate_resume, handleTranslate_try, translateText, tryRead, he, ht]

theorem handleTranslate_resume_success (h : Host) (sel : String) (data err : JSVal) (v : View)
    (he : data.getProp h .error = .ok err) (ht : err.truthy = false) :
    handleTranslate_resume h sel (.fulfilled data) v =
      ({ v with
          hindiText := (data.field .translation).or (.str "")
          timeTaken := (data.field .time_taken).or (.num (.lit 0))
          modelUsed := (data.field .model_used).or (.str sel)
          bleuScore :=
            if data.field .bleu ≠ .undefined then data.field .bleu else v.bleuScore
          meteorScore :=
            if data.field .meteor ≠ .undefined then data.field .meteor else v.meteorScore
          loading := false }, none) := by
  have h1 := getProp_of_ok h data .error .translation err he
  have h2 := getProp_of_ok h data .error .time_taken err he
  have h3 := getProp_of_ok h data .error .model_used err he
  have h4 := getProp_of_ok h data .error .bleu err he
  have h5 := getProp_of_ok h data .error .meteor err he
  simp only [handleTranslate_resume, handleTranslate_try, translateText, tryRead, he, ht,
    h1, h2, h3, h4, h5]
  by_cases hb : data.field .bleu = .undefined <;>
    by_cases hm : data.field .meteor = .undefined <;> simp [hb, hm]

theorem handleTranslate_resume_nullish (h : Host) (sel : String) (data : JSVal) (v : View)
    (hn : data = .undefined ∨ data = .null) :
    handleTranslate_resume h sel (.fulfilled data) v =
      ({ v with
          hindiText := .str ("Error: " ++ h.nullishReadMessage data "error")
          loading := false }, none) := by
  rcases hn with rfl | rfl <;>
    simp [handleTranslate_resume, handleTranslate_try, handleTranslate_catch, translateText,
      tryRead, JSVal.getProp, JSVal.typeError, JSVal.toStr, Field.name]

theorem handleTranslate_nonblank (h : Host) (o : Outcome) (v : View)
    (hne : jsTrim v.englishText ≠ "") :
    handleTranslate h o v =
      ⟨(handleTranslate_resume h v.selectedModel o
          { v with loading := true, hindiText := .str "", bleuScore := .null,
                   meteorScore := .null }).1,
        [⟨v.englishText, v.selectedModel⟩],
        (handleTranslate_resume h v.selectedModel o
          { v with loading := true, hindiText := .str "", bleuScore := .null,
                   meteorScore := .null }).2⟩ := by
  simp [handleTranslate, handleTranslate_begin_nonblank v hne]

theorem binary64_zero : binary64 0 = 0 := by simp [binary64]

theorem lit_zero : JSNum.lit 0 = .fin 0 := by simp [JSNum.lit, binary64_zero]

/-- The exact values of the fractional literals of `getScoreLabel`, and their order. -/
theorem binary64_thresholds :
    binary64 (2 / 10) = 3602879701896397 / 18014398509481984 ∧
    binary64 (4 / 10) = 3602879701896397 / 9007199254740992 ∧
    binary64 (7 / 10) = 3152519739159347 / 4503599627370496 ∧
    binary64 (2 / 10) < binary64 (4 / 10) ∧
    binary64 (4 / 10) < binary64 (7 / 10) := by
  decide!

theorem getScoreLabel_fin (h : Host) (s : ℚ) :
    getScoreLabel h (.num (.fin s)) =
      if binary64 (7 / 10) ≤ s then "Excellent"
      else if binary64 (4 / 10) ≤ s then "Good"
      else if binary64 (2 / 10) ≤ s then "Fair"
      else "Low" := by
  simp [getScoreLabel, JSVal.geNum, JSVal.toNumber, JSNum.ge, JSNum.lit, JSNum.lt]

theorem getScoreLabel_num_host (h k : Host) (x : JSNum) :
    getScoreLabel h (.num x) = getScoreLabel k (.num x) := rfl

theorem latencyLabel_num_host (h k : Host) (x : JSNum) :
    latencyLabel h (.num x) = latencyLabel k (.num x) := rfl

theorem or_str_empty (t : String) : (JSVal.str t).or (.str "") = .str t := by
  by_cases ht : t = "" <;> simp [JSVal.or, JSVal.truthy, ht]

theorem or_fin_zero (s : ℚ) : (JSVal.num (.fin s)).or (.num (.lit 0)) = .num (.fin s) := by
  by_cases hs : s = 0 <;> simp [JSVal.or, JSVal.truthy, hs, lit_zero]

theorem binary64_three_eight : binary64 3 = 3 ∧ binary64 8 = 8 := by decide!

theorem latencyLabel_fin (h : Host) (t : ℚ) :
    latencyLabel h (.num (.fin t)) =
      if t < 3 then "Fast" else if t < 8 then "Moderate" else "Slow" := by
  simp [latencyLabel, JSVal.ltNum, JSVal.toNumber, JSNum.lit, JSNum.lt,
    binary64_three_eight.1, binary64_three_eight.2]

theorem string_join_cons (a : String) (l : List String) :
    String.join (a :: l) = a ++ String.join l := by
  rw [String.join_eq, String.join_eq]
  apply String.ext
  simp

theorem finalText_cons (seg : Segment) (rest : List Segment) :
    finalText (seg :: rest) =
      if seg.isFinal then seg.transcript ++ finalText rest else finalText rest := by
  cases hf : seg.isFinal <;> simp [finalText, hf, string_join_cons]

theorem interimText_cons (seg : Segment) (rest : List Segment) :
    interimText (seg :: rest) =
      if seg.isFinal then interimText rest else seg.transcript ++ interimText rest := by
  cases hf : seg.isFinal <;> simp [interimText, hf, string_join_cons]

theorem collectTranscripts_eq (results : List Segment) (f i : String) :
    collectTranscripts results (f, i) = (f ++ finalText results, i ++ interimText results) := by
  induction results generalizing f i with
  | nil => simp [collectTranscripts, finalText, interimText, String.join]
  | cons seg rest ih =>
    rw [finalText_cons, interimText_cons]
    cases hf : seg.isFinal <;> simp [collectTranscripts, hf, ih, String.append_assoc]

theorem recognition_onresult_text (results : List Segment) (p : Page) :
    (recognition_onresult results p).view.englishText =
      if finalText results ≠ "" then finalText results else interimText results := by
  simp [recognition_onresult, collectTranscripts_eq, JSVal.truthy]

theorem finalText_ne_empty (results : List Segment)
    (hex : ∃ s ∈ results, s.isFinal = true ∧ s.transcript ≠ "") : finalText results ≠ "" := by
  induction results with
  | nil => simp at hex
  | cons seg rest ih =>
    rw [finalText_cons]
    obtain ⟨s, hs, hfin, hne⟩ := hex
    rcases List.mem_cons.mp hs with rfl | hmem
    · simp only [hfin, if_true]
      intro hcat
      apply hne
      have := congrArg String.data hcat
      simp at this
      exact String.ext (by simpa using this.1)
    · have hrest := ih ⟨s, hmem, hfin, hne⟩
      split
      · intro hcat
        apply hrest
        have := congrArg String.data hcat
        simp at this
        exact String.ext (by simpa using this.2)
      · exact hrest

theorem finalText_eq_empty (results : List Segment)
    (hall : ∀ s ∈ results, s.isFinal = false) : finalText results = "" := by
  induction results with
  | nil => simp [finalText, String.join]
  | cons seg rest ih =>
    rw [finalText_cons]
    simp [hall seg (List.mem_cons_self _ _), ih fun s hs => hall s (List.mem_cons_of_mem _ hs)]

theorem callStop_length (id : ℕ) (l : List Session) : (callStop id l).length = l.length := by
  induction l generalizing id with
  | nil => simp [callStop]
  | cons s rest ih => cases id <;> simp [callStop, ih]

theorem callStop_getElem? (id k : ℕ) (l : List Session) :
    ((callStop id l)[k]?).map (fun s => (s.started, s.ended)) =
      (l[k]?).map (fun s => (s.started, s.ended)) := by
  induction l generalizing id k with
  | nil => simp [callStop]
  | cons s rest ih =>
    cases id <;> cases k <;> simp [callStop]
    exact ih _ _

theorem stopRecording_dispatches (p : Page) (k : ℕ) :
    (stopRecording p).dispatches k = p.dispatches k := by
  unfold stopRecording Page.dispatches
  cases hr : p.recognitionRef with
  | none => simp
  | some id =>
    simp only [List.get?_eq_getElem?]
    have key := callStop_getElem? id k p.sessions
    cases h1 : (callStop id p.sessions)[k]? <;> cases h2 : p.sessions[k]? <;>
      simp [h1, h2] at key ⊢
    rw [key.1, key.2]


theorem handlePlayAudio_begin_str (h : Host) (p : Page) (s : String)
    (hs : p.view.hindiText = .str s) :
    handlePlayAudio_begin h p =
      if jsTrim s = "" ∨ p.view.playingAudio = true then (p, none, none)
      else
        ({ p with view := { p.view with playingAudio := true },
                  ttsRequests := p.ttsRequests ++ [s] }, some s, none) := by
  unfold handlePlayAudio_begin
  rw [hs]
  by_cases hb : jsTrim s = "" <;> by_cases hp : p.view.playingAudio = true <;>
    simp [JSVal.truthy, hb, hp]

theorem handlePlayEnglish_guard (h : Host) (p : Page)
    (hg : jsTrim p.view.englishText = "" ∨ p.view.playingEnglish = true) :
    handlePlayEnglish h p = p := by
  unfold handlePlayEnglish
  rcases hg with hb | hp
  · simp [JSVal.truthy, hb]
  · simp [hp]

theorem handleTranslate_resume_frame (h : Host) (sel : String) (o : Outcome) (v : View) :
    (handleTranslate_resume h sel o v).1.selectedModel = v.selectedModel ∧
    (handleTranslate_resume h sel o v).1.models = v.models ∧
    (handleTranslate_resume h sel o v).1.englishText = v.englishText := by
  cases o with
  | rejected e =>
    cases hm : e.getProp h .message with
    | error x =>
      simp [handleTranslate_resume, handleTranslate_try, handleTranslate_catch, translateText,
        tryRead, hm]
    | ok m => simp [handleTranslate_resume_rejected h sel e m v hm]
  | fulfilled data =>
    cases he : data.getProp h .error with
    | error x =>
      cases hm : x.getProp h .message with
      | error y =>
        simp [handleTranslate_resume, handleTranslate_try, handleTranslate_catch,
          translateText, tryRead, he, hm]
      | ok m =>
        simp [handleTranslate_resume, handleTranslate_try, handleTranslate_catch,
          translateText, tryRead, he, hm]
    | ok err =>
      cases ht : err.truthy with
      | true => simp [handleTranslate_resume_error h sel data err v he ht]
      | false => simp [handleTranslate_resume_success h sel data err v he ht]

theorem handleTranslate_resume_error_stats (h : Host) (sel : String) (o : Outcome) (v : View)
    (herr : (∃ e, o = .rejected e) ∨
      (∃ data, o = .fulfilled data ∧ (data = .undefined ∨ data = .null)) ∨
      (∃ data err, o = .fulfilled data ∧ data.getProp h .error = .ok err ∧ err.truthy = true)) :
    (handleTranslate_resume h sel o v).1.timeTaken = v.timeTaken ∧
    (handleTranslate_resume h sel o v).1.modelUsed = v.modelUsed := by
  rcases herr with ⟨e, rfl⟩ | ⟨data, rfl, hn⟩ | ⟨data, err, rfl, he, ht⟩
  · cases hm : e.getProp h .message with
    | error x =>
      simp [handleTranslate_resume, handleTranslate_try, handleTranslate_catch, translateText,
        tryRead, hm]
    | ok m => simp [handleTranslate_resume_rejected h sel e m v hm]
  · simp [handleTranslate_resume_nullish h sel data v hn]
  · simp [handleTranslate_resume_error h sel data err v he ht]


theorem handleTranslate_frame (h : Host) (o : Outcome) (v : View) :
    (handleTranslate h o v).view.selectedModel = v.selectedModel ∧
    (handleTranslate h o v).view.models = v.models ∧
    ∀ c ∈ (handleTranslate h o v).calls, c.model = v.selectedModel := by
  by_cases hb : jsTrim v.englishText = ""
  · simp [handleTranslate, handleTranslate_begin_blank v hb]
  · rw [handleTranslate_nonblank h o v hb]
    have hf := handleTranslate_resume_frame h v.selectedModel o
      { v with loading := true, hindiText := .str "", bleuScore := .null,
               meteorScore := .null }
    exact ⟨hf.1, hf.2.1, by simp⟩

theorem clickTranslate_frame (h : Host) (o : Outcome) (v : View) :
    (clickTranslate h o v).view.selectedModel = v.selectedModel ∧
    (clickTranslate h o v).view.models = v.models ∧
    ∀ c ∈ (clickTranslate h o v).calls, c.model = v.selectedModel := by
  unfold clickTranslate
  split
  · simp
  · exact handleTranslate_frame h o v

theorem uiRun_models (h : Host) (M : List String) (events : List UiEvent) :
    ∀ (v v2 : View) (calls : List TranslateCall),
      v.models = M → (v.selectedModel = "nllb" ∨ v.selectedModel ∈ M) →
      uiRun h events v = some (v2, calls) →
      v2.models = M ∧ (v2.selectedModel = "nllb" ∨ v2.selectedModel ∈ M) ∧
      ∀ c ∈ calls, c.model = "nllb" ∨ c.model ∈ M := by
  induction events with
  | nil =>
    intro v v2 calls hM hsel hrun
    simp only [uiRun, Option.some.injEq, Prod.mk.injEq] at hrun
    obtain ⟨rfl, rfl⟩ := hrun
    exact ⟨hM, hsel, by simp⟩
  | cons e rest ih =>
    intro v v2 calls hM hsel hrun
    unfold uiRun at hrun
    cases hstep : uiStep h v e with
    | none => simp [hstep] at hrun
    | some r =>
      obtain ⟨v1, c1⟩ := r
      cases hrest : uiRun h rest v1 with
      | none => simp [hstep, hrest] at hrun
      | some r2 =>
        obtain ⟨v3, c3⟩ := r2
        simp only [hstep, hrest, Option.some.injEq, Prod.mk.injEq] at hrun
        obtain ⟨rfl, rfl⟩ := hrun
        have hstepInv : v1.models = M ∧ (v1.selectedModel = "nllb" ∨ v1.selectedModel ∈ M) ∧
            ∀ c ∈ c1, c.model = "nllb" ∨ c.model ∈ M := by
          cases e with
          | edit text =>
            simp only [uiStep, Option.some.injEq, Prod.mk.injEq] at hstep
            obtain ⟨rfl, rfl⟩ := hstep
            exact ⟨hM, hsel, by simp⟩
          | select model =>
            by_cases hmem : model ∈ v.models
            · simp only [uiStep, hmem, if_true, Option.some.injEq, Prod.mk.injEq] at hstep
              obtain ⟨rfl, rfl⟩ := hstep
              exact ⟨hM, Or.inr (hM ▸ hmem), by simp⟩
            · simp [uiStep, hmem] at hstep
          | translate o =>
            simp only [uiStep, Option.some.injEq, Prod.mk.injEq] at hstep
            obtain ⟨rfl, rfl⟩ := hstep
            obtain ⟨f1, f2, f3⟩ := clickTranslate_frame h o v
            refine ⟨f2.trans hM, f1 ▸ hsel, ?_⟩
            intro c hc
            rw [f3 c hc]
            exact hsel
        obtain ⟨i1, i2, i3⟩ := hstepInv
        obtain ⟨j1, j2, j3⟩ := ih v1 v3 c3 i1 i2 hrest
        refine ⟨j1, j2, ?_⟩
        intro c hc
        rcases List.mem_append.mp hc with hc | hc
        · exact i3 c hc
        · exact j3 c hc

theorem loadModels_resume_models (h : Host) (o : Outcome) (v : View)
    (hv : v.models = []) :
    (loadModels_resume h o v).models = suppliedModels h o ∧
    (loadModels_resume h o v).selectedModel = v.selectedModel := by
  unfold suppliedModels loadModels_resume
  cases o with
  | rejected e => simp [getModels, hv, View.initial]
  | fulfilled data =>
    cases hm : data.getProp h .models with
    | error x => simp [getModels, hm, hv, View.initial]
    | ok m => simp [getModels, hm]

theorem handleTranslate_resume_playback (h : Host) (a b : Bool) (sel : String) (o : Outcome)
    (v : View) :
    (handleTranslate_resume h sel o (v.withPlayback a b)).1
      = (handleTranslate_resume h sel o v).1.withPlayback a b := by
  cases o with
  | rejected e =>
    cases hm : e.getProp h .message with
    | error x =>
      simp [handleTranslate_resume, handleTranslate_try, handleTranslate_catch, translateText,
        tryRead, hm, View.withPlayback]
    | ok m =>
      simp [handleTranslate_resume_rejected h sel e m _ hm, View.withPlayback]
  | fulfilled data =>
    cases he : data.getProp h .error with
    | error x =>
      cases hm : x.getProp h .message with
      | error y =>
        simp [handleTranslate_resume, handleTranslate_try, handleTranslate_catch,
          translateText, tryRead, he, hm, View.withPlayback]
      | ok m =>
        simp [handleTranslate_resume, handleTranslate_try, handleTranslate_catch,
          translateText, tryRead, he, hm, View.withPlayback]
    | ok err =>
      cases ht : err.truthy with
      | true => simp [handleTranslate_resume_error h sel data err _ he ht, View.withPlayback]
      | false =>
        simp [handleTranslate_resume_success h sel data err _ he ht, View.withPlayback]

theorem jsIncludes_iff (s sub : String) :
    jsIncludes s sub = true ↔ ContainsSubstring s sub := by
  unfold jsIncludes ContainsSubstring
  rw [List.any_eq_true]
  constructor
  · rintro ⟨t, ht, hp⟩
    obtain ⟨pre, hpre⟩ := (List.mem_tails _ _).mp ht
    obtain ⟨post, hpost⟩ := List.isPrefixOf_iff_prefix.mp hp
    refine ⟨⟨pre⟩, ⟨post⟩, ?_⟩
    apply String.ext
    simp [← hpre, ← hpost]
  · rintro ⟨pre, post, hs⟩
    refine ⟨sub.data ++ post.data, ?_, ?_⟩
    · rw [List.mem_tails]
      refine ⟨pre.data, ?_⟩
      rw [hs]
      simp
    · exact List.isPrefixOf_iff_prefix.mpr ⟨post.data, rfl⟩

theorem splitGo_single_head (c0 : Char) (l acc : List Char) :
    (splitGo [c0] l 0 acc).head? = some (acc.reverse ++ l.takeWhile fun x => x ≠ c0) := by
  induction l generalizing acc with
  | nil => simp [splitGo]
  | cons c cs ih =>
    by_cases hc : c = c0
    · subst hc
      simp [splitGo, List.isPrefixOf]
    · have hc2 : ¬ c0 = c := fun e => hc e.symm
      simp [splitGo, List.isPrefixOf, hc, hc2, ih]

theorem jsSplit_head (c0 : Char) (s : String) :
    (jsSplit (String.singleton c0) s).headD "" = beforeFirst c0 s := by
  unfold jsSplit beforeFirst
  have hsep : (String.singleton c0).data = [c0] := rfl
  rw [hsep]
  have := splitGo_single_head c0 s.data []
  cases hl : splitGo [c0] s.data 0 [] with
  | nil => simp [hl] at this
  | cons x xs =>
    simp [hl] at this
    simp [this]


theorem login_userData (email : String) (password : JSVal) (s : AuthState) :
    login email password s =
      ({ s with user := some (User.mk email (beforeFirst '@' email)
          (if jsIncludes email "mentor" || jsIncludes email "admin" then "mentor"
            else "user")) },
        .resolved (User.mk email (beforeFirst '@' email)
          (if jsIncludes email "mentor" || jsIncludes email "admin" then "mentor"
            else "user"))) := by
  have hat : ("@" : String) = String.singleton '@' := rfl
  simp only [login, hat, jsSplit_head]

theorem getProp_of_defined (h : Host) (v : JSVal) (f : Field)
    (hv : v ≠ .undefined ∧ v ≠ .null) : v.getProp h f = .ok (v.field f) := by
  cases v <;> simp [JSVal.getProp, JSVal.field] at hv ⊢

theorem historyRows_ok (h : Host) (history : List JSVal)
    (hitems : ∀ item ∈ history, item ≠ .undefined ∧ item ≠ .null) :
    historyRows h history = .ok (history.map fun item =>
      [item.field .english, item.field .hindi, item.field .model, item.field .time_taken,
        item.field .timestamp]) := by
  induction history with
  | nil => rfl
  | cons item rest ih =>
    have hi := hitems item (List.mem_cons_self _ _)
    have hr := ih fun x hx => hitems x (List.mem_cons_of_mem _ hx)
    simp [historyRows, historyRow, getProp_of_defined h item _ hi, hr, bind, Except.bind,
      pure, Except.pure]

theorem jsJoin_cons_cons (sep x y : String) (rest : List String) :
    jsJoin sep (x :: y :: rest) = x ++ sep ++ jsJoin sep (y :: rest) := rfl

theorem intercalate_go_eq (sep : String) (l : List String) :
    ∀ acc : String, String.intercalate.go acc sep l =
      if l = [] then acc else acc ++ sep ++ jsJoin sep l := by
  induction l with
  | nil => intro acc; simp [String.intercalate.go]
  | cons a rest ih =>
    intro acc
    cases rest with
    | nil => simp [String.intercalate.go, jsJoin]
    | cons b bs =>
      rw [String.intercalate.go, ih]
      simp [jsJoin_cons_cons, String.append_assoc]

theorem jsJoin_eq_intercalate (sep : String) (l : List String) :
    jsJoin sep l = String.intercalate sep l := by
  cases l with
  | nil => rfl
  | cons a rest =>
    cases rest with
    | nil => simp [String.intercalate, String.intercalate.go, jsJoin]
    | cons b bs =>
      rw [String.intercalate, intercalate_go_eq]
      simp [jsJoin_cons_cons, String.append_assoc]

theorem splitGo_free (s0 : Char) (st : List Char) (x : List Char) (hx : s0 ∉ x) :
    ∀ (rest acc : List Char),
      splitGo (s0 :: st) (x ++ rest) 0 acc = splitGo (s0 :: st) rest 0 (x.reverse ++ acc) := by
  induction x with
  | nil => intro rest acc; rfl
  | cons c cs ih =>
    intro rest acc
    have hc : ¬ s0 = c := fun e => hx (e ▸ List.mem_cons_self _ _)
    have hcs : s0 ∉ cs := fun hm => hx (List.mem_cons_of_mem _ hm)
    simp [splitGo, List.isPrefixOf, hc, ih hcs]

theorem splitGo_skip (sep pre : List Char) :
    ∀ (rest acc : List Char),
      splitGo sep (pre ++ rest) pre.length acc = splitGo sep rest 0 acc := by
  induction pre with
  | nil => intro rest acc; rfl
  | cons c cs ih =>
    intro rest acc
    simp [splitGo, ih]

theorem splitGo_sep (s0 : Char) (st rest acc : List Char) :
    splitGo (s0 :: st) ((s0 :: st) ++ rest) 0 acc =
      acc.reverse :: splitGo (s0 :: st) rest 0 [] := by
  have hp : (s0 :: st).isPrefixOf (s0 :: (st ++ rest)) = true :=
    List.isPrefixOf_iff_prefix.mpr ⟨rest, rfl⟩
  have hstep : splitGo (s0 :: st) (s0 :: (st ++ rest)) 0 acc =
      acc.reverse :: splitGo (s0 :: st) (st ++ rest) ((s0 :: st).length - 1) [] := by
    rw [splitGo, if_pos hp]
  rw [List.cons_append, hstep]
  simp only [List.length_cons, Nat.add_sub_cancel]
  rw [splitGo_skip]

theorem splitGo_join (sep : String) (s0 : Char) (st : List Char) (hsep : sep.data = s0 :: st)
    (l : List String) (hl : l ≠ []) (hfree : ∀ x ∈ l, s0 ∉ x.data) :
    splitGo sep.data (jsJoin sep l).data 0 [] = l.map String.data := by
  induction l with
  | nil => exact absurd rfl hl
  | cons x rest ih =>
    have hx : s0 ∉ x.data := hfree x (List.mem_cons_self _ _)
    cases rest with
    | nil =>
      have := splitGo_free s0 st x.data hx [] []
      simp only [List.append_nil] at this
      simp [jsJoin, hsep, this, splitGo]
    | cons y more =>
      have ih2 := ih (by simp) fun z hz => hfree z (List.mem_cons_of_mem _ hz)
      rw [jsJoin_cons_cons]
      simp only [String.data_append, List.append_assoc, hsep] at ih2 ⊢
      rw [splitGo_free s0 st x.data hx, splitGo_sep, ih2]
      simp

theorem jsSplit_jsJoin (sep : String) (s0 : Char) (st : List Char) (hsep : sep.data = s0 :: st)
    (l : List String) (hl : l ≠ []) (hfree : ∀ x ∈ l, s0 ∉ x.data) :
    jsSplit sep (jsJoin sep l) = l := by
  unfold jsSplit
  rw [splitGo_join sep s0 st hsep l hl hfree, List.map_map]
  exact List.map_id'' (fun s => rfl) l

theorem jsJoin_not_mem (c : Char) (sep : String) (hsep : c ∉ sep.data) (l : List String)
    (hl : ∀ x ∈ l, c ∉ x.data) : c ∉ (jsJoin sep l).data := by
  induction l with
  | nil => simp [jsJoin]
  | cons x rest ih =>
    have hx := hl x (List.mem_cons_self _ _)
    cases rest with
    | nil => simpa [jsJoin] using hx
    | cons y more =>
      have ih2 := ih fun z hz => hl z (List.mem_cons_of_mem _ hz)
      rw [jsJoin_cons_cons]
      simp only [String.data_append, List.mem_append, not_or]
      exact ⟨⟨hx, hsep⟩, ih2⟩

theorem jsJoin_quoted (cells : List String) (hc : cells ≠ []) :
    jsJoin "," (cells.map quoted) = "\"" ++ jsJoin "\",\"" cells ++ "\"" := by
  induction cells with
  | nil => exact absurd rfl hc
  | cons x rest ih =>
    cases rest with
    | nil => simp [jsJoin, quoted]
    | cons y more =>
      have ih2 := ih (by simp)
      simp only [List.map_cons] at ih2 ⊢
      rw [jsJoin_cons_cons, jsJoin_cons_cons, ih2]
      apply String.ext
      simp [quoted]


theorem unquote_quoted_line (cells : List String) (hc : cells ≠ []) :
    String.mk (((jsJoin "," (cells.map quoted)).data.drop 1).dropLast)
      = jsJoin "\",\"" cells := by
  rw [jsJoin_quoted cells hc]
  apply String.ext
  have hq : ("\"" : String).data = ['"'] := rfl
  simp only [String.data_append, hq, List.singleton_append]
  show ((jsJoin "\",\"" cells).data ++ ['"']).dropLast = (jsJoin "\",\"" cells).data
  exact List.dropLast_concat

theorem readCsv_table (table : List (List String)) (ht : table ≠ [])
    (hrows : ∀ row ∈ table, row ≠ [])
    (hclean : ∀ row ∈ table, ∀ cell ∈ row, '"' ∉ cell.data ∧ '\n' ∉ cell.data) :
    readCsv (jsJoin "\n" (table.map fun row => jsJoin "," (row.map quoted))) = table := by
  unfold readCsv
  have hlines : jsSplit "\n" (jsJoin "\n" (table.map fun row => jsJoin "," (row.map quoted)))
      = table.map fun row => jsJoin "," (row.map quoted) := by
    apply jsSplit_jsJoin "\n" '\n' [] rfl
    · simpa using ht
    · intro line hline
      obtain ⟨row, hrow, rfl⟩ := List.mem_map.mp hline
      rw [jsJoin_quoted row (hrows row hrow)]
      have hq : ("\"" : String).data = ['"'] := rfl
      have hin : '\n' ∉ (jsJoin "\",\"" row).data :=
        jsJoin_not_mem '\n' "\",\"" (by decide) row fun cell hcell =>
          (hclean row hrow cell hcell).2
      simp only [String.data_append, hq, List.mem_append, List.mem_singleton, not_or]
      exact ⟨⟨by decide, hin⟩, by decide⟩
  rw [hlines, List.map_map]
  have hid : ∀ row ∈ table,
      ((fun line : String => jsSplit "\",\"" (String.mk ((line.data.drop 1).dropLast))) ∘
        fun row => jsJoin "," (row.map quoted)) row = row := by
    intro row hrow
    simp only [Function.comp_apply]
    rw [unquote_quoted_line row (hrows row hrow)]
    exact jsSplit_jsJoin "\",\"" '"' [',', '"'] rfl row (hrows row hrow)
      fun cell hcell => (hclean row hrow cell hcell).1
  calc table.map _ = table.map id := List.map_congr_left hid
    _ = table := List.map_id _

theorem csvText_eq (h : Host) (rows : List (List JSVal)) :
    csvText h rows =
      jsJoin "\n" (((csvHeader :: rows).map fun row => row.map (JSVal.toStr h)).map
        fun row => jsJoin "," (row.map quoted)) := by
  unfold csvText
  congr 1
  rw [List.map_map]
  apply List.map_congr_left
  intro row _
  simp only [csvLine, Function.comp_apply, List.map_map]
  rfl

/-! ## The translation request cycle -/

/-- C1: for every input text that is non-empty after trimming and every way the backend
call settles (fulfilled with any body, or rejected with any reason), `handleTranslate` issues
exactly one translate request, carrying the text and the selected model, and the loading
flag is false when it completes.  The flag is false whatever state the component is in when
the call settles. -/
theorem handleTranslate_one_request_loading_cleared (h : Host) (o : Outcome) (v : View)
    (hne : jsTrim v.englishText ≠ "") :
    (handleTranslate h o v).calls = [⟨v.englishText, v.selectedModel⟩] ∧
    (handleTranslate h o v).calls.length = 1 ∧
    (handleTranslate h o v).view.loading = false ∧
    (handleTranslate_begin v).2 = some ⟨v.englishText, v.selectedModel⟩ ∧
    ∀ (sel : String) (cur : View), (handleTranslate_resume h sel o cur).1.loading = false := by
  rw [handleTranslate_nonblank h o v hne, handleTranslate_begin_nonblank v hne]
  exact ⟨rfl, rfl, rfl, rfl, fun _ _ => rfl⟩

theorem handleTranslate_one_request_loading_cleared_witness :
    jsTrim helloView.englishText ≠ "" ∧
    (handleTranslate stubHost (.rejected networkError) helloView).calls
      = [⟨"Hello world", "nllb"⟩] ∧
    (handleTranslate stubHost (.rejected networkError) helloView).view.loading = false :=
  ⟨by decide,
    (handleTranslate_one_request_loading_cleared stubHost (.rejected networkError) helloView
      (by decide)).1,
    (handleTranslate_one_request_loading_cleared stubHost (.rejected networkError) helloView
      (by decide)).2.2.1⟩

/-- C2: for every input text that is empty or consists only of white space,
`handleTranslate` issues no translate request and leaves the whole view state as it was
(translation, loading flag, elapsed time, model used and both scores included); it returns
at the guard, before any state update, and no exception escapes. -/
theorem handleTranslate_blank_noop (h : Host) (o : Outcome) (v : View)
    (hb : ∀ c ∈ v.englishText.data, isJSWhitespace c = true) :
    (handleTranslate h o v).calls = [] ∧
    (handleTranslate h o v).view = v ∧
    (handleTranslate h o v).escaped = none ∧
    handleTranslate_begin v = (v, none) := by
  have hbegin := handleTranslate_begin_blank v ((jsTrim_eq_empty_iff _).mpr hb)
  simp [handleTranslate, hbegin]

theorem handleTranslate_blank_noop_witness :
    (∀ c ∈ ({ shownView with englishText := " \t\n" } : View).englishText.data,
      isJSWhitespace c = true) ∧
    (handleTranslate stubHost (.fulfilled stubResponse)
      { shownView with englishText := " \t\n" }).calls = [] ∧
    (handleTranslate stubHost (.fulfilled stubResponse)
      { shownView with englishText := " \t\n" }).view
        = { shownView with englishText := " \t\n" } :=
  ⟨by decide,
    (handleTranslate_blank_noop stubHost (.fulfilled stubResponse)
      { shownView with englishText := " \t\n" } (by decide)).1,
    (handleTranslate_blank_noop stubHost (.fulfilled stubResponse)
      { shownView with englishText := " \t\n" } (by decide)).2.1⟩

/-- C3, as stated, fails: `handleTranslate` has no guard on `loading`.  Invoked in a state
with `loading = true` and non-blank text it issues a translate request. -/
theorem handleTranslate_has_no_loading_guard :
    ({ helloView with loading := true } : View).loading = true ∧
    (handleTranslate stubHost (.fulfilled stubResponse)
      { helloView with loading := true }).calls = [⟨"Hello world", "nllb"⟩] := by
  decide

/-- C3, amended: the rejection of a submission while a request is in flight is done by the
Translate button, the only caller of `handleTranslate`.  For every view state with
`loading = true` a click on the button issues no request and changes nothing; and the state
`handleTranslate` leaves when it has issued a request has the button disabled. -/
theorem clickTranslate_rejected_while_loading (h : Host) (o : Outcome) (v : View)
    (hl : v.loading = true) :
    translateDisabled v = true ∧
    (clickTranslate h o v).calls = [] ∧
    (clickTranslate h o v).view = v ∧
    ∀ (u u1 : View) (c : TranslateCall),
      handleTranslate_begin u = (u1, some c) →
        u1.loading = true ∧ translateDisabled u1 = true := by
  have hd : translateDisabled v = true := by simp [translateDisabled, hl]
  refine ⟨hd, by simp [clickTranslate, hd], by simp [clickTranslate, hd], ?_⟩
  intro u u1 c hu
  by_cases hb : jsTrim u.englishText = ""
  · rw [handleTranslate_begin_blank u hb] at hu
    simp at hu
  · rw [handleTranslate_begin_nonblank u hb] at hu
    simp only [Prod.mk.injEq] at hu
    obtain ⟨rfl, -⟩ := hu
    simp [translateDisabled]

theorem clickTranslate_rejected_while_loading_witness :
    ({ helloView with loading := true } : View).loading = true ∧
    (clickTranslate stubHost (.fulfilled stubResponse)
      { helloView with loading := true }).calls = [] :=
  ⟨rfl,
    (clickTranslate_rejected_while_loading stubHost (.fulfilled stubResponse)
      { helloView with loading := true } rfl).2.1⟩

/-- C4: when the translate call fails by throwing a value whose message is `m`, then for
every prior view state (with the non-blank text that let the call be made)
`handleTranslate` ends with displayed text exactly `Error: ` followed by `m`, with
`loading = false`, and with no exception escaping; the same holds from whatever state the
component is in when the rejection arrives. -/
theorem handleTranslate_thrown_failure (h : Host) (e : JSVal) (m : String) (v : View)
    (hm : e.getProp h .message = .ok (.str m)) (hne : jsTrim v.englishText ≠ "") :
    (handleTranslate h (.rejected e) v).view.hindiText = .str ("Error: " ++ m) ∧
    (handleTranslate h (.rejected e) v).view.loading = false ∧
    (handleTranslate h (.rejected e) v).escaped = none ∧
    ∀ (sel : String) (cur : View),
      handleTranslate_resume h sel (.rejected e) cur =
        ({ cur with hindiText := .str ("Error: " ++ m), loading := false }, none) := by
  have hr : ∀ (sel : String) (cur : View),
      handleTranslate_resume h sel (.rejected e) cur =
        ({ cur with hindiText := .str ("Error: " ++ m), loading := false }, none) := by
    intro sel cur
    rw [handleTranslate_resume_rejected h sel e (.str m) cur hm]
    rfl
  rw [handleTranslate_nonblank h _ v hne, hr]
  exact ⟨rfl, rfl, rfl, hr⟩

theorem handleTranslate_thrown_failure_witness :
    networkError.getProp stubHost .message = .ok (.str "Network Error") ∧
    jsTrim shownView.englishText ≠ "" ∧
    (handleTranslate stubHost (.rejected networkError) shownView).view.hindiText
      = .str "Error: Network Error" ∧
    (handleTranslate stubHost (.rejected networkError) shownView).view.loading = false ∧
    (handleTranslate stubHost (.rejected networkError) shownView).escaped = none :=
  ⟨rfl, by decide,
    (handleTranslate_thrown_failure stubHost networkError "Network Error" shownView
      rfl (by decide)).1,
    (handleTranslate_thrown_failure stubHost networkError "Network Error" shownView
      rfl (by decide)).2.1,
    (handleTranslate_thrown_failure stubHost networkError "Network Error" shownView
      rfl (by decide)).2.2.1⟩

/-- C5: for every backend response whose `error` property is a non-empty string `e`, and
for every prior view state (one showing the scores of an earlier translation included),
`handleTranslate` ends with displayed text exactly `Error: ` followed by `e` and with
`bleuScore` and `meteorScore` both `null`, so the metrics section and each of its cards is
not rendered. -/
theorem handleTranslate_error_response (h : Host) (data : JSVal) (e : String) (v : View)
    (he : data.getProp h .error = .ok (.str e)) (hnonempty : e ≠ "")
    (hne : jsTrim v.englishText ≠ "") :
    (handleTranslate h (.fulfilled data) v).view.hindiText = .str ("Error: " ++ e) ∧
    (handleTranslate h (.fulfilled data) v).view.bleuScore = .null ∧
    (handleTranslate h (.fulfilled data) v).view.meteorScore = .null ∧
    metricsShown (handleTranslate h (.fulfilled data) v).view = false ∧
    bleuCard h (handleTranslate h (.fulfilled data) v).view = none ∧
    meteorCard h (handleTranslate h (.fulfilled data) v).view = none ∧
    latencyCard h (handleTranslate h (.fulfilled data) v).view = none := by
  have ht : (JSVal.str e).truthy = true := by simp [JSVal.truthy, hnonempty]
  rw [handleTranslate_nonblank h _ v hne, handleTranslate_resume_error h _ data _ _ he ht]
  simp [JSVal.toStr, metricsShown, bleuCard, meteorCard, latencyCard]

theorem handleTranslate_error_response_witness :
    stubErrorResponse.getProp stubHost .error = .ok (.str "model unavailable") ∧
    jsTrim shownView.englishText ≠ "" ∧
    shownView.bleuScore ≠ .null ∧
    (handleTranslate stubHost (.fulfilled stubErrorResponse) shownView).view.hindiText
      = .str "Error: model unavailable" ∧
    metricsShown (handleTranslate stubHost (.fulfilled stubErrorResponse) shownView).view
      = false :=
  ⟨rfl, by decide, by decide,
    (handleTranslate_error_response stubHost stubErrorResponse "model unavailable" shownView
      rfl (by decide) (by decide)).1,
    (handleTranslate_error_response stubHost stubErrorResponse "model unavailable" shownView
      rfl (by decide) (by decide)).2.2.2.1⟩

/-- C6: for every success response without an `error` property whose `translation` is the
string `t`, `time_taken` the finite number `s`, `bleu` the number `b` and `meteor` the number
`r`, `handleTranslate` ends with displayed translation `t`, elapsed time `s`,
`bleuScore = b` and `meteorScore = r`, so the BLEU card shows `getScoreLabel(b)` and the
latency card the latency band of `s`.  For the stub of the end-to-end scenario the displayed
translation is the stub's, the BLEU band is `Excellent` and the latency band is `Fast`. -/
theorem handleTranslate_success_response (h : Host) (data : JSVal) (t : String) (s : ℚ)
    (b r : JSNum) (v : View)
    (hE : data.getProp h .error = .ok .undefined)
    (hT : data.getProp h .translation = .ok (.str t))
    (hS : data.getProp h .time_taken = .ok (.num (.fin s)))
    (hB : data.getProp h .bleu = .ok (.num b))
    (hR : data.getProp h .meteor = .ok (.num r))
    (hne : jsTrim v.englishText ≠ "") :
    (handleTranslate h (.fulfilled data) v).view.hindiText = .str t ∧
    (handleTranslate h (.fulfilled data) v).view.timeTaken = .num (.fin s) ∧
    (handleTranslate h (.fulfilled data) v).view.bleuScore = .num b ∧
    (handleTranslate h (.fulfilled data) v).view.meteorScore = .num r ∧
    (handleTranslate h (.fulfilled data) v).view.loading = false ∧
    bleuCard h (handleTranslate h (.fulfilled data) v).view
      = some (getScoreLabel h (.num b)) ∧
    latencyCard h (handleTranslate h (.fulfilled data) v).view
      = some (latencyLabel h (.num (.fin s))) ∧
    (handleTranslate h (.fulfilled stubResponse) v).view.hindiText = .str "नमस्ते दुनिया" ∧
    bleuCard h (handleTranslate h (.fulfilled stubResponse) v).view = some "Excellent" ∧
    latencyCard h (handleTranslate h (.fulfilled stubResponse) v).view = some "Fast" := by
  have key : ∀ (d : JSVal) (t1 : String) (s1 : ℚ) (b1 r1 : JSNum),
      d.getProp h .error = .ok .undefined → d.getProp h .translation = .ok (.str t1) →
      d.getProp h .time_taken = .ok (.num (.fin s1)) → d.getProp h .bleu = .ok (.num b1) →
      d.getProp h .meteor = .ok (.num r1) →
      (handleTranslate h (.fulfilled d) v).view.hindiText = .str t1 ∧
      (handleTranslate h (.fulfilled d) v).view.timeTaken = .num (.fin s1) ∧
      (handleTranslate h (.fulfilled d) v).view.bleuScore = .num b1 ∧
      (handleTranslate h (.fulfilled d) v).view.meteorScore = .num r1 ∧
      (handleTranslate h (.fulfilled d) v).view.loading = false ∧
      bleuCard h (handleTranslate h (.fulfilled d) v).view
        = some (getScoreLabel h (.num b1)) ∧
      latencyCard h (handleTranslate h (.fulfilled d) v).view
        = some (latencyLabel h (.num (.fin s1))) := by
    intro d t1 s1 b1 r1 dE dT dS dB dR
    rw [handleTranslate_nonblank h _ v hne,
      handleTranslate_resume_success h _ d .undefined _ dE rfl]
    simp only [field_of_ok h d _ _ dT, field_of_ok h d _ _ dS, field_of_ok h d _ _ dB,
      field_of_ok h d _ _ dR, or_str_empty, or_fin_zero]
    simp [bleuCard, latencyCard, metricsShown]
  obtain ⟨k1, -, -, -, -, k6, k7⟩ :=
    key stubResponse "नमस्ते दुनिया" (binary64 (12 / 10)) (.lit (82 / 100)) (.lit (75 / 100))
      rfl rfl rfl rfl rfl
  obtain ⟨d1, d2, d3, d4, d5, d6, d7⟩ := key data t s b r hE hT hS hB hR
  refine ⟨d1, d2, d3, d4, d5, d6, d7, k1, ?_, ?_⟩
  · rw [k6, getScoreLabel_num_host h stubHost]; decide!
  · rw [k7, latencyLabel_num_host h stubHost]; decide!

theorem handleTranslate_success_response_witness :
    jsTrim helloView.englishText ≠ "" ∧
    (handleTranslate stubHost (.fulfilled stubResponse) helloView).view.hindiText
      = .str "नमस्ते दुनिया" ∧
    (handleTranslate stubHost (.fulfilled stubResponse) helloView).view.bleuScore
      = .num (.lit (82 / 100)) ∧
    bleuCard stubHost (handleTranslate stubHost (.fulfilled stubResponse) helloView).view
      = some "Excellent" ∧
    latencyCard stubHost (handleTranslate stubHost (.fulfilled stubResponse) helloView).view
      = some "Fast" :=
  ⟨by decide,
    (handleTranslate_success_response stubHost stubResponse "नमस्ते दुनिया"
      (binary64 (12 / 10)) (.lit (82 / 100)) (.lit (75 / 100)) helloView
      rfl rfl rfl rfl rfl (by decide)).1,
    (handleTranslate_success_response stubHost stubResponse "नमस्ते दुनिया"
      (binary64 (12 / 10)) (.lit (82 / 100)) (.lit (75 / 100)) helloView
      rfl rfl rfl rfl rfl (by decide)).2.2.1,
    (handleTranslate_success_response stubHost stubResponse "नमस्ते दुनिया"
      (binary64 (12 / 10)) (.lit (82 / 100)) (.lit (75 / 100)) helloView
      rfl rfl rfl rfl rfl (by decide)).2.2.2.2.2.2.2.2.1,
    (handleTranslate_success_response stubHost stubResponse "नमस्ते दुनिया"
      (binary64 (12 / 10)) (.lit (82 / 100)) (.lit (75 / 100)) helloView
      rfl rfl rfl rfl rfl (by decide)).2.2.2.2.2.2.2.2.2⟩

/-- C7: for every success response (its `error` property absent or falsy) that omits `bleu`,
and for every prior view state, `bleuScore` is `null` after `handleTranslate`, so the BLEU
card is not rendered: it shows neither zero nor the score of the previous translation.  The
same holds for `meteor`, `meteorScore` and the METEOR card. -/
theorem handleTranslate_absent_score_hidden (h : Host) (data err : JSVal) (v : View)
    (he : data.getProp h .error = .ok err) (hf : err.truthy = false)
    (hne : jsTrim v.englishText ≠ "") :
    (data.getProp h .bleu = .ok .undefined →
      (handleTranslate h (.fulfilled data) v).view.bleuScore = .null ∧
      bleuCard h (handleTranslate h (.fulfilled data) v).view = none) ∧
    (data.getProp h .meteor = .ok .undefined →
      (handleTranslate h (.fulfilled data) v).view.meteorScore = .null ∧
      meteorCard h (handleTranslate h (.fulfilled data) v).view = none) := by
  rw [handleTranslate_nonblank h _ v hne, handleTranslate_resume_success h _ data err _ he hf]
  constructor
  · intro hb
    simp [field_of_ok h data _ _ hb, bleuCard]
  · intro hm
    simp [field_of_ok h data _ _ hm, meteorCard]

theorem handleTranslate_absent_score_hidden_witness :
    jsTrim shownView.englishText ≠ "" ∧
    shownView.bleuScore = .num (.lit (82 / 100)) ∧
    (handleTranslate stubHost (.fulfilled timelessResponse) shownView).view.bleuScore
      = .null ∧
    bleuCard stubHost (handleTranslate stubHost (.fulfilled timelessResponse) shownView).view
      = none ∧
    (handleTranslate stubHost (.fulfilled timelessResponse) shownView).view.meteorScore
      = .null :=
  ⟨by decide, rfl,
    ((handleTranslate_absent_score_hidden stubHost timelessResponse .undefined shownView
      rfl rfl (by decide)).1 rfl).1,
    ((handleTranslate_absent_score_hidden stubHost timelessResponse .undefined shownView
      rfl rfl (by decide)).1 rfl).2,
    ((handleTranslate_absent_score_hidden stubHost timelessResponse .undefined shownView
      rfl rfl (by decide)).2 rfl).1⟩

/-- C8, as stated, fails: a success response that omits `time_taken` and `model_used`
overwrites the displayed elapsed time with `0` and the displayed model with the requested
model, and one that omits `translation` leaves the empty string in place of the text that
was displayed. -/
theorem handleTranslate_overwrites_with_defaults :
    shownView.timeTaken = .num (.lit (12 / 10)) ∧
    (handleTranslate stubHost (.fulfilled timelessResponse) shownView).view.timeTaken
      = .num (.fin 0) ∧
    shownView.modelUsed = .str "m2m" ∧
    shownView.selectedModel = "nllb" ∧
    (handleTranslate stubHost (.fulfilled timelessResponse) shownView).view.modelUsed
      = .str "nllb" ∧
    shownView.hindiText = .str "शुभ प्रभात" ∧
    (handleTranslate stubHost (.fulfilled (.obj [("model_used", .str "m2m")]))
      shownView).view.hindiText = .str "" := by
  decide!

/-- C8, amended: on a success response the displayed text, elapsed time and model used are
always written, with the value of the response when it is present and truthy and with a
default otherwise.  A response that omits `translation` leaves the empty string, one that
omits `time_taken` leaves `0`, one that omits `model_used` leaves the requested model. -/
theorem handleTranslate_success_defaults (h : Host) (data err : JSVal) (v : View)
    (he : data.getProp h .error = .ok err) (hf : err.truthy = false)
    (hne : jsTrim v.englishText ≠ "") :
    (handleTranslate h (.fulfilled data) v).view.hindiText
      = (data.field .translation).or (.str "") ∧
    (handleTranslate h (.fulfilled data) v).view.timeTaken
      = (data.field .time_taken).or (.num (.fin 0)) ∧
    (handleTranslate h (.fulfilled data) v).view.modelUsed
      = (data.field .model_used).or (.str v.selectedModel) ∧
    (data.getProp h .translation = .ok .undefined →
      (handleTranslate h (.fulfilled data) v).view.hindiText = .str "") ∧
    (data.getProp h .time_taken = .ok .undefined →
      (handleTranslate h (.fulfilled data) v).view.timeTaken = .num (.fin 0)) ∧
    (data.getProp h .model_used = .ok .undefined →
      (handleTranslate h (.fulfilled data) v).view.modelUsed = .str v.selectedModel) := by
  rw [handleTranslate_nonblank h _ v hne, handleTranslate_resume_success h _ data err _ he hf]
  refine ⟨rfl, by simp [lit_zero], rfl, ?_, ?_, ?_⟩
  · intro hx
    simp [field_of_ok h data _ _ hx, JSVal.or, JSVal.truthy]
  · intro hx
    simp [field_of_ok h data _ _ hx, JSVal.or, JSVal.truthy, lit_zero]
  · intro hx
    simp [field_of_ok h data _ _ hx, JSVal.or, JSVal.truthy]

theorem handleTranslate_success_defaults_witness :
    jsTrim shownView.englishText ≠ "" ∧
    (handleTranslate stubHost (.fulfilled timelessResponse) shownView).view.timeTaken
      = .num (.fin 0) ∧
    (handleTranslate stubHost (.fulfilled timelessResponse) shownView).view.modelUsed
      = .str "nllb" :=
  ⟨by decide,
    (handleTranslate_success_defaults stubHost timelessResponse .undefined shownView
      rfl rfl (by decide)).2.2.2.2.1 rfl,
    (handleTranslate_success_defaults stubHost timelessResponse .undefined shownView
      rfl rfl (by decide)).2.2.2.2.2 rfl⟩

/-- C9, as stated, fails: for the empty object and for a body that is not JSON, both 2xx
responses with neither an `error` nor a `translation` property, `handleTranslate` displays
no error string: the translated text is the empty string and the output box shows its
placeholder. -/
theorem handleTranslate_malformed_not_reported :
    (handleTranslate stubHost (.fulfilled (.obj [])) helloView).view.hindiText = .str "" ∧
    outputText (handleTranslate stubHost (.fulfilled (.obj [])) helloView).view
      = .str "Translation will appear here..." ∧
    (handleTranslate stubHost (.fulfilled htmlBody) helloView).view.hindiText = .str "" ∧
    outputText (handleTranslate stubHost (.fulfilled htmlBody) helloView).view
      = .str "Translation will appear here..." := by
  decide

/-- C9, amended: for every 2xx response body `handleTranslate` ends with `loading = false`.
A body that is `null` (or `undefined`) displays an error string, `Error: ` followed by the
message of the `TypeError` raised by reading its `error` property.  Every other body with
neither a truthy `error` nor a `translation` property (an empty object, a string, a number,
a boolean, an array) is handled as a success: the translated text is the empty string, the
output box shows its placeholder, and the elapsed time and the model used are written as
for any success response (the value of the response, else `0` and the requested model). -/
theorem handleTranslate_malformed_response (h : Host) (data : JSVal) (v : View)
    (hne : jsTrim v.englishText ≠ "") :
    (handleTranslate h (.fulfilled data) v).view.loading = false ∧
    (data = .undefined ∨ data = .null →
      (handleTranslate h (.fulfilled data) v).view.hindiText
        = .str ("Error: " ++ h.nullishReadMessage data "error") ∧
      (handleTranslate h (.fulfilled data) v).escaped = none) ∧
    (∀ err : JSVal, data.getProp h .error = .ok err → err.truthy = false →
      data.getProp h .translation = .ok .undefined →
      (handleTranslate h (.fulfilled data) v).view.hindiText = .str "" ∧
      outputText (handleTranslate h (.fulfilled data) v).view
        = .str "Translation will appear here..." ∧
      (handleTranslate h (.fulfilled data) v).view.timeTaken
        = (data.field .time_taken).or (.num (.fin 0)) ∧
      (handleTranslate h (.fulfilled data) v).view.modelUsed
        = (data.field .model_used).or (.str v.selectedModel) ∧
      (handleTranslate h (.fulfilled data) v).escaped = none) := by
  rw [handleTranslate_nonblank h _ v hne]
  refine ⟨rfl, ?_, ?_⟩
  · intro hn
    rw [handleTranslate_resume_nullish h _ data _ hn]
    exact ⟨rfl, rfl⟩
  · intro err he hf ht
    rw [handleTranslate_resume_success h _ data err _ he hf]
    simp [field_of_ok h data _ _ ht, JSVal.or, JSVal.truthy, outputText, lit_zero]

theorem handleTranslate_malformed_response_witness :
    jsTrim helloView.englishText ≠ "" ∧
    (handleTranslate stubHost (.fulfilled .null) helloView).view.loading = false ∧
    (handleTranslate stubHost (.fulfilled .null) helloView).view.hindiText
      = .str "Error: result is null" ∧
    (handleTranslate stubHost (.fulfilled htmlBody) helloView).view.loading = false ∧
    (handleTranslate stubHost (.fulfilled htmlBody) helloView).view.hindiText = .str "" :=
  ⟨by decide,
    (handleTranslate_malformed_response stubHost .null helloView (by decide)).1,
    ((handleTranslate_malformed_response stubHost .null helloView (by decide)).2.1
      (Or.inr rfl)).1,
    (handleTranslate_malformed_response stubHost htmlBody helloView (by decide)).1,
    ((handleTranslate_malformed_response stubHost htmlBody helloView (by decide)).2.2
      .undefined rfl rfl rfl).1⟩

/-! ## Metrics presentation -/

/-- C10: `getScoreLabel` maps every numeric score to exactly one of four bands with
inclusive lower bounds: `Excellent` exactly when `s >= 0.7`, `Good` exactly when
`0.4 <= s < 0.7`, `Fair` exactly when `0.2 <= s < 0.4`, and `Low` otherwise (`NaN`
included).  The thresholds are the literals of the source, read as binary64 values like the
score they are compared with.  On the listed scores: band(0.0) = Low, band(0.19) = Low,
band(0.2) = Fair, band(0.39) = Fair, band(0.4) = Good, band(0.69) = Good,
band(0.7) = Excellent, band(1.0) = Excellent.  The mapping is monotone non-decreasing for
the order `Low < Fair < Good < Excellent`. -/
theorem getScoreLabel_bands (h : Host) :
    (∀ s : ℚ,
      (getScoreLabel h (.num (.fin s)) = "Excellent" ↔ binary64 (7 / 10) ≤ s) ∧
      (getScoreLabel h (.num (.fin s)) = "Good" ↔
        binary64 (4 / 10) ≤ s ∧ s < binary64 (7 / 10)) ∧
      (getScoreLabel h (.num (.fin s)) = "Fair" ↔
        binary64 (2 / 10) ≤ s ∧ s < binary64 (4 / 10)) ∧
      (getScoreLabel h (.num (.fin s)) = "Low" ↔ s < binary64 (2 / 10))) ∧
    (∀ x : JSNum, getScoreLabel h (.num x) ∈ ["Low", "Fair", "Good", "Excellent"]) ∧
    getScoreLabel h (.num .nan) = "Low" ∧
    getScoreLabel h (.num (.lit 0)) = "Low" ∧
    getScoreLabel h (.num (.lit (19 / 100))) = "Low" ∧
    getScoreLabel h (.num (.lit (2 / 10))) = "Fair" ∧
    getScoreLabel h (.num (.lit (39 / 100))) = "Fair" ∧
    getScoreLabel h (.num (.lit (4 / 10))) = "Good" ∧
    getScoreLabel h (.num (.lit (69 / 100))) = "Good" ∧
    getScoreLabel h (.num (.lit (7 / 10))) = "Excellent" ∧
    getScoreLabel h (.num (.lit 1)) = "Excellent" ∧
    (∀ s t : ℚ, s ≤ t →
      bandRank (getScoreLabel h (.num (.fin s))) ≤
        bandRank (getScoreLabel h (.num (.fin t)))) := by
  obtain ⟨-, -, -, h24, h47⟩ := binary64_thresholds
  refine ⟨?_, ?_, rfl, ?_, ?_, ?_, ?_, ?_, ?_, ?_, ?_, ?_⟩
  · intro s
    rw [getScoreLabel_fin]
    by_cases c7 : binary64 (7 / 10) ≤ s
    · have c4 : binary64 (4 / 10) ≤ s := le_trans h47.le c7
      have c2 : binary64 (2 / 10) ≤ s := le_trans h24.le c4
      simp [c7, not_lt.mpr c7, not_lt.mpr c4, not_lt.mpr c2]
    · by_cases c4 : binary64 (4 / 10) ≤ s
      · have c2 : binary64 (2 / 10) ≤ s := le_trans h24.le c4
        simp [c7, c4, not_lt.mpr c4, not_lt.mpr c2, not_le.mp c7]
      · by_cases c2 : binary64 (2 / 10) ≤ s
        · simp [c7, c4, c2, not_le.mp c4, not_lt.mpr c2]
        · simp [c7, c4, c2, not_le.mp c2]
  · intro x
    unfold getScoreLabel
    split_ifs <;> simp
  · rw [getScoreLabel_num_host h stubHost]; decide!
  · rw [getScoreLabel_num_host h stubHost]; decide!
  · rw [getScoreLabel_num_host h stubHost]; decide!
  · rw [getScoreLabel_num_host h stubHost]; decide!
  · rw [getScoreLabel_num_host h stubHost]; decide!
  · rw [getScoreLabel_num_host h stubHost]; decide!
  · rw [getScoreLabel_num_host h stubHost]; decide!
  · rw [getScoreLabel_num_host h stubHost]; decide!
  · intro s t hst
    rw [getScoreLabel_fin, getScoreLabel_fin]
    by_cases c7 : binary64 (7 / 10) ≤ s
    · have d7 : binary64 (7 / 10) ≤ t := le_trans c7 hst
      simp [c7, d7]
    · by_cases c4 : binary64 (4 / 10) ≤ s
      · have d4 : binary64 (4 / 10) ≤ t := le_trans c4 hst
        by_cases d7 : binary64 (7 / 10) ≤ t <;> simp [c7, c4, d4, d7, bandRank]
      · by_cases c2 : binary64 (2 / 10) ≤ s
        · have d2 : binary64 (2 / 10) ≤ t := le_trans c2 hst
          by_cases d7 : binary64 (7 / 10) ≤ t <;> by_cases d4 : binary64 (4 / 10) ≤ t <;>
            simp [c7, c4, c2, d2, d4, d7, bandRank]
        · simp [c7, c4, c2, bandRank]

/-- C11: the latency band shown for a finite elapsed time `t` is `Fast` exactly when
`t < 3`, `Moderate` exactly when `3 <= t < 8` and `Slow` exactly when `t >= 8`; on the
listed times band(2.9) = Fast, band(3.0) = Moderate, band(7.9) = Moderate and
band(8.0) = Slow; and the latency card, when the metrics section is rendered, shows that
band of the elapsed time in the state. -/
theorem latencyLabel_bands (h : Host) :
    (∀ t : ℚ,
      (latencyLabel h (.num (.fin t)) = "Fast" ↔ t < 3) ∧
      (latencyLabel h (.num (.fin t)) = "Moderate" ↔ 3 ≤ t ∧ t < 8) ∧
      (latencyLabel h (.num (.fin t)) = "Slow" ↔ 8 ≤ t)) ∧
    latencyLabel h (.num (.lit (29 / 10))) = "Fast" ∧
    latencyLabel h (.num (.lit 3)) = "Moderate" ∧
    latencyLabel h (.num (.lit (79 / 10))) = "Moderate" ∧
    latencyLabel h (.num (.lit 8)) = "Slow" ∧
    (∀ (v : View) (t : ℚ), metricsShown v = true → v.timeTaken = .num (.fin t) →
      latencyCard h v = some (if t < 3 then "Fast" else if t < 8 then "Moderate" else "Slow")) := by
  refine ⟨?_, ?_, ?_, ?_, ?_, ?_⟩
  · intro t
    rw [latencyLabel_fin]
    by_cases c3 : t < 3
    · have c8 : t < 8 := lt_trans c3 (by norm_num)
      simp [c3, not_le.mpr c3, not_le.mpr c8]
    · by_cases c8 : t < 8
      · simp [c3, c8, not_lt.mp c3, not_le.mpr c8]
      · simp [c3, c8, not_lt.mp c8]
  · rw [latencyLabel_num_host h stubHost]; decide!
  · rw [latencyLabel_num_host h stubHost]; decide!
  · rw [latencyLabel_num_host h stubHost]; decide!
  · rw [latencyLabel_num_host h stubHost]; decide!
  · intro v t hs ht
    simp [latencyCard, hs, ht, latencyLabel_fin]

theorem latencyLabel_bands_witness :
    metricsShown shownView = true ∧
    latencyCard stubHost { shownView with timeTaken := .num (.fin 3) } = some "Moderate" :=
  ⟨by decide,
    (latencyLabel_bands stubHost).2.2.2.2.2 { shownView with timeTaken := .num (.fin 3) } 3
      (by decide) rfl⟩

/-! ## The speech capture controller -/

/-- C12, as stated, fails: an event with a final segment whose transcript is empty and an
interim segment makes `onresult` display the interim text, although a final segment exists
and the concatenation of the final transcripts is the empty string. -/
theorem onresult_empty_final_shows_interim :
    (∃ s ∈ emptyFinalEvent, s.isFinal = true) ∧
    finalText emptyFinalEvent = "" ∧
    (recognition_onresult emptyFinalEvent Page.initial).view.englishText = "hel" := by
  decide

/-- C12, amended: for every recognition event the `onresult` handler replaces the input
text with the in-order concatenation of the transcripts of the final segments whenever that
concatenation is non-empty (so whenever some final segment has a non-empty transcript), and
otherwise with the in-order concatenation of the transcripts of the interim segments (so
whenever the event has no final segment).  The result is one of the two texts, never both
joined; it does not depend on the page before the event, so after any sequence of events
it is the text of the last one. -/
theorem onresult_replaces_text (results : List Segment) (p : Page) :
    (finalText results ≠ "" →
      (recognition_onresult results p).view.englishText = finalText results) ∧
    (finalText results = "" →
      (recognition_onresult results p).view.englishText = interimText results) ∧
    ((∃ s ∈ results, s.isFinal = true ∧ s.transcript ≠ "") →
      (recognition_onresult results p).view.englishText = finalText results) ∧
    ((∀ s ∈ results, s.isFinal = false) →
      (recognition_onresult results p).view.englishText = interimText results) ∧
    ((recognition_onresult results p).view.englishText = finalText results ∨
      (recognition_onresult results p).view.englishText = interimText results) ∧
    (∀ q : Page, (recognition_onresult results q).view.englishText
      = (recognition_onresult results p).view.englishText) ∧
    (∀ earlier : List (List Segment),
      ((earlier ++ [results]).foldl (fun q e => recognition_onresult e q) p).view.englishText
        = (recognition_onresult results p).view.englishText) := by
  refine ⟨?_, ?_, ?_, ?_, ?_, ?_, ?_⟩
  · intro hne
    simp [recognition_onresult_text, hne]
  · intro he
    simp [recognition_onresult_text, he]
  · intro hex
    simp [recognition_onresult_text, finalText_ne_empty results hex]
  · intro hall
    simp [recognition_onresult_text, finalText_eq_empty results hall]
  · rw [recognition_onresult_text]
    by_cases he : finalText results = "" <;> simp [he]
  · intro q
    rw [recognition_onresult_text, recognition_onresult_text]
  · intro earlier
    rw [List.foldl_append]
    simp only [List.foldl_cons, List.foldl_nil]
    rw [recognition_onresult_text, recognition_onresult_text]

theorem onresult_replaces_text_witness :
    (∃ s ∈ [Segment.mk "hello " true, Segment.mk "wor" false, Segment.mk "there" true],
      s.isFinal = true ∧ s.transcript ≠ "") ∧
    (recognition_onresult
      [Segment.mk "hello " true, Segment.mk "wor" false, Segment.mk "there" true]
      interimPage).view.englishText = "hello there" ∧
    (∀ s ∈ [Segment.mk "hel" false], s.isFinal = false) ∧
    (recognition_onresult [Segment.mk "hel" false] interimPage).view.englishText = "hel" :=
  ⟨by decide,
    (onresult_replaces_text
      [Segment.mk "hello " true, Segment.mk "wor" false, Segment.mk "there" true]
      interimPage).2.2.1 (by decide),
    by decide,
    (onresult_replaces_text [Segment.mk "hel" false] interimPage).2.2.2.1 (by decide)⟩

/-- C13: `stopRecording` is idempotent.  For every page, calling it twice yields the same
page as calling it once, with `recording = false`, no session held and the same number of
`stop()` calls on capture streams; called when already idle (`recording = false`, no session
held) it changes nothing and calls `stop()` on nothing. -/
theorem stopRecording_idempotent (p : Page) :
    stopRecording (stopRecording p) = stopRecording p ∧
    (stopRecording p).view.recording = false ∧
    (stopRecording p).recognitionRef = none ∧
    stopCallCount (stopRecording (stopRecording p)) = stopCallCount (stopRecording p) ∧
    (p.view.recording = false → p.recognitionRef = none →
      stopRecording p = p ∧ stopCallCount (stopRecording p) = stopCallCount p) := by
  have h1 : stopRecording (stopRecording p) = stopRecording p := by
    cases hr : p.recognitionRef <;> simp [stopRecording, hr]
  refine ⟨h1, ?_, ?_, by rw [h1], ?_⟩
  · cases hr : p.recognitionRef <;> simp [stopRecording, hr]
  · cases hr : p.recognitionRef <;> simp [stopRecording, hr]
  · intro hrec href
    have : stopRecording p = p := by
      obtain ⟨view, ref, sessions, alerts, errs, tts, urls, utts⟩ := p
      obtain ⟨a, b, c, d, e, f, g, i, j, k, l, m⟩ := view
      simp only at hrec href
      subst hrec href
      rfl
    exact ⟨this, by rw [this]⟩

theorem stopRecording_idempotent_witness :
    Page.initial.view.recording = false ∧ Page.initial.recognitionRef = none ∧
    stopRecording Page.initial = Page.initial ∧
    stopCallCount (stopRecording (stopRecording recordingPage)) = 1 ∧
    stopCallCount (stopRecording recordingPage) = 1 :=
  ⟨rfl, rfl, ((stopRecording_idempotent Page.initial).2.2.2.2 rfl rfl).1,
    by decide, by decide⟩


/-- C14, as stated, fails: from the recording state, `onend` leaves the session in
`recognitionRef.current`, while `stopRecording` sets it to `null`. -/
theorem onend_keeps_session_handle :
    recordingPage.view.recording = true ∧
    recordingPage.recognitionRef = some 0 ∧
    (recognition_onend recordingPage).recognitionRef = some 0 ∧
    (stopRecording recordingPage).recognitionRef = none := by
  decide

/-- C14, amended: when the capture stream ends on its own, `onend` leaves the React state
`stopRecording` produces from the same page (`recording = false`, everything else as it
was) and calls `stop()` on nothing; it does not clear the session held in `recognitionRef`,
which `stopRecording` does.  The retained handle does not show: the next `toggleRecording`
yields the same React state after either, and where recognition is supported the same (new)
session handle. -/
theorem onend_matches_stopRecording_view (h : Host) (p : Page) :
    (recognition_onend p).view = (stopRecording p).view ∧
    (recognition_onend p).view.recording = false ∧
    (recognition_onend p).recognitionRef = p.recognitionRef ∧
    (recognition_onend p).sessions = p.sessions ∧
    (toggleRecording h (recognition_onend p)).view
      = (toggleRecording h (stopRecording p)).view ∧
    (h.speechRecognition = true →
      (toggleRecording h (recognition_onend p)).recognitionRef
        = (toggleRecording h (stopRecording p)).recognitionRef) := by
  have hv : (recognition_onend p).view = (stopRecording p).view := by
    cases hr : p.recognitionRef <;> simp [recognition_onend, stopRecording, hr]
  have hlen : (stopRecording p).sessions.length = p.sessions.length := by
    cases hr : p.recognitionRef <;> simp [stopRecording, hr, callStop_length]
  refine ⟨hv, rfl, rfl, rfl, ?_, ?_⟩
  · have hrec : (stopRecording p).view.recording = false := by rw [← hv]; rfl
    have hrec2 : (recognition_onend p).view.recording = false := rfl
    simp only [toggleRecording, hrec, hrec2, startRecording]
    by_cases hc : h.speechRecognition = true <;> simp [hc, hv]
  · intro hc
    have hrec : (stopRecording p).view.recording = false := by rw [← hv]; rfl
    have hrec2 : (recognition_onend p).view.recording = false := rfl
    simp only [toggleRecording, hrec, hrec2, startRecording]
    simp [hc, hlen, recognition_onend]

theorem onend_matches_stopRecording_view_witness :
    stubHost.speechRecognition = true ∧
    (recognition_onend recordingPage).view = (stopRecording recordingPage).view ∧
    (toggleRecording stubHost (recognition_onend recordingPage)).recognitionRef
      = (toggleRecording stubHost (stopRecording recordingPage)).recognitionRef :=
  ⟨rfl, (onend_matches_stopRecording_view stubHost recordingPage).1,
    (onend_matches_stopRecording_view stubHost recordingPage).2.2.2.2.2 rfl⟩

/-- C15: when the host provides no speech recognition, `startRecording` shows the alert
that recognition is not supported and that Chrome or Edge should be used, creates no
session, and leaves the React state and `recognitionRef` as they were; from the idle state,
where `toggleRecording` runs it, the controller stays idle (`recording = false`, no session
held). -/
theorem startRecording_unsupported (h : Host) (p : Page)
    (hno : h.speechRecognition = false) :
    (startRecording h p).alerts = p.alerts ++
      ["Speech recognition is not supported in this browser. Please use Chrome or Edge."] ∧
    (startRecording h p).sessions = p.sessions ∧
    (startRecording h p).view = p.view ∧
    (startRecording h p).recognitionRef = p.recognitionRef ∧
    (p.view.recording = false → p.recognitionRef = none →
      toggleRecording h p = startRecording h p ∧
      (startRecording h p).view.recording = false ∧
      (startRecording h p).recognitionRef = none) := by
  have hs : startRecording h p = { p with alerts := p.alerts ++
      ["Speech recognition is not supported in this browser. Please use Chrome or Edge."] } := by
    simp [startRecording, hno]
  rw [hs]
  refine ⟨rfl, rfl, rfl, rfl, ?_⟩
  intro hrec href
  exact ⟨by simp [toggleRecording, hrec, hs], hrec, href⟩

theorem startRecording_unsupported_witness :
    silentHost.speechRecognition = false ∧
    Page.initial.view.recording = false ∧ Page.initial.recognitionRef = none ∧
    (startRecording silentHost Page.initial).alerts =
      ["Speech recognition is not supported in this browser. Please use Chrome or Edge."] ∧
    (startRecording silentHost Page.initial).sessions = [] ∧
    (startRecording silentHost Page.initial).view.recording = false ∧
    (startRecording silentHost Page.initial).recognitionRef = none :=
  ⟨rfl, rfl, rfl, (startRecording_unsupported silentHost Page.initial rfl).1,
    (startRecording_unsupported silentHost Page.initial rfl).2.1,
    ((startRecording_unsupported silentHost Page.initial rfl).2.2.2.2 rfl rfl).2.1,
    ((startRecording_unsupported silentHost Page.initial rfl).2.2.2.2 rfl rfl).2.2⟩

/-- C16: for every recognition error event the `onerror` handler leaves
`recording = false`.  For the code `not-allowed` it shows the alert about microphone
permissions; for every other code it shows no alert (the code goes to the console only), so
what the user sees for `not-allowed` differs from what they see for every other code. -/
theorem onerror_idle_distinct_message (code : String) (p : Page) :
    (recognition_onerror code p).view.recording = false ∧
    (recognition_onerror "not-allowed" p).alerts =
      p.alerts ++ ["Microphone access denied. Please allow microphone permissions."] ∧
    (code ≠ "not-allowed" →
      (recognition_onerror code p).alerts = p.alerts ∧
      (recognition_onerror code p).alerts ≠ (recognition_onerror "not-allowed" p).alerts) := by
  refine ⟨?_, ?_, ?_⟩
  · unfold recognition_onerror
    split <;> rfl
  · simp [recognition_onerror]
  · intro hne
    simp [recognition_onerror, hne]

theorem onerror_idle_distinct_message_witness :
    "no-speech" ≠ "not-allowed" ∧
    (recognition_onerror "no-speech" recordingPage).view.recording = false ∧
    (recognition_onerror "no-speech" recordingPage).alerts = [] ∧
    (recognition_onerror "not-allowed" recordingPage).alerts =
      ["Microphone access denied. Please allow microphone permissions."] :=
  ⟨by decide, (onerror_idle_distinct_message "no-speech" recordingPage).1,
    ((onerror_idle_distinct_message "no-speech" recordingPage).2.2 (by decide)).1,
    (onerror_idle_distinct_message "no-speech" recordingPage).2.1⟩

/-- C17 does not hold of the code.  Start, stop, start again, and then the `end` event of
the first session (dispatched by the browser after `stop()`): `recording` is false while the
second session is started and neither stopped nor ended.  One more click starts a third
session without stopping the second: two sessions are active. -/
theorem stale_end_event_breaks_single_session :
    (recRun stubHost [.toggle, .toggle, .toggle, .ended 0] Page.initial).map
        (fun p => (p.view.recording, (activeSessions p).length)) = some (false, 1) ∧
    (recRun stubHost [.toggle, .toggle, .toggle, .ended 0, .toggle] Page.initial).map
        (fun p => (p.view.recording, (activeSessions p).length)) = some (true, 2) := by
  decide

/-- C18, as stated, fails: after an event that carried only an interim segment,
`stopRecording` leaves that interim text as the input text, and a result event the stopped
session delivers afterwards replaces the input text. -/
theorem stopRecording_keeps_interim_text :
    interimPage.view.recording = true ∧
    interimPage.view.englishText = "hel" ∧
    (stopRecording interimPage).view.englishText = "hel" ∧
    (recStep stubHost (stopRecording interimPage) (.result 0 [Segment.mk "hello" true])).map
        (fun p => p.view.englishText) = some "hello" := by
  decide

/-- C18, amended: `stopRecording` does not change the input text, so an interim text that is
displayed when recording is stopped stays; and stopping detaches no handler: the stopped
session dispatches what it dispatched before, and a result event it delivers afterwards
replaces the input text as every result event does. -/
theorem stopRecording_leaves_text (h : Host) (p : Page) (id : ℕ) (results : List Segment) :
    (stopRecording p).view.englishText = p.view.englishText ∧
    (stopRecording p).dispatches id = p.dispatches id ∧
    recStep h (stopRecording p) (.result id results) =
      (if p.dispatches id then some (recognition_onresult results (stopRecording p))
        else none) ∧
    (recognition_onresult results (stopRecording p)).view.englishText =
      (if finalText results ≠ "" then finalText results else interimText results) := by
  refine ⟨?_, stopRecording_dispatches p id, ?_, recognition_onresult_text _ _⟩
  · cases hr : p.recognitionRef <;> simp [stopRecording, hr]
  · simp [recStep, stopRecording_dispatches]


/-! ## The playback channels -/

/-- C19: each playback channel is single-flight.  In every state with `playingAudio`
true `handlePlayAudio` requests no synthesis and changes no state; in every state with
`playingEnglish` true `handlePlayEnglish` starts no utterance and changes no state; each is
also a no-op when its text is empty or white space only.  A `handlePlayAudio` that has
requested synthesis leaves `playingAudio` true, and a `handlePlayEnglish` that has started
an utterance leaves `playingEnglish` true, so a second invocation is a no-op: no two
attempts on one channel overlap. -/
theorem playback_single_flight (h : Host) (p : Page) :
    (p.view.playingAudio = true →
      (handlePlayAudio_begin h p).1 = p ∧ (handlePlayAudio_begin h p).2.1 = none) ∧
    (p.view.playingEnglish = true → handlePlayEnglish h p = p) ∧
    (∀ s : String, p.view.hindiText = .str s → (∀ c ∈ s.data, isJSWhitespace c = true) →
      handlePlayAudio_begin h p = (p, none, none)) ∧
    ((∀ c ∈ p.view.englishText.data, isJSWhitespace c = true) → handlePlayEnglish h p = p) ∧
    (∀ t : String, (handlePlayAudio_begin h p).2.1 = some t →
      (handlePlayAudio_begin h p).1.view.playingAudio = true ∧
      (handlePlayAudio_begin h (handlePlayAudio_begin h p).1).1 = (handlePlayAudio_begin h p).1 ∧
      (handlePlayAudio_begin h (handlePlayAudio_begin h p).1).2.1 = none) ∧
    ((handlePlayEnglish h p).utterances ≠ p.utterances →
      (handlePlayEnglish h p).view.playingEnglish = true ∧
      handlePlayEnglish h (handlePlayEnglish h p) = handlePlayEnglish h p) := by
  have busy : ∀ q : Page, q.view.playingAudio = true →
      (handlePlayAudio_begin h q).1 = q ∧ (handlePlayAudio_begin h q).2.1 = none := by
    intro q hq
    cases hh : q.view.hindiText with
    | str s => simp [handlePlayAudio_begin_str h q s hh, hq]
    | _ => simp [handlePlayAudio_begin, hh]
  refine ⟨busy p, fun hp => handlePlayEnglish_guard h p (Or.inr hp), ?_, ?_, ?_, ?_⟩
  · intro s hs hb
    simp [handlePlayAudio_begin_str h p s hs, (jsTrim_eq_empty_iff s).mpr hb]
  · intro hb
    exact handlePlayEnglish_guard h p (Or.inl ((jsTrim_eq_empty_iff _).mpr hb))
  · intro t ht
    have hflag : (handlePlayAudio_begin h p).1.view.playingAudio = true := by
      cases hh : p.view.hindiText with
      | str s =>
        rw [handlePlayAudio_begin_str h p s hh] at ht ⊢
        by_cases hg : jsTrim s = "" ∨ p.view.playingAudio = true
        · simp [hg] at ht
        · simp [hg]
      | _ => simp [handlePlayAudio_begin, hh] at ht
    exact ⟨hflag, busy _ hflag⟩
  · intro hu
    by_cases hg : jsTrim p.view.englishText = "" ∨ p.view.playingEnglish = true
    · exact absurd (by rw [handlePlayEnglish_guard h p hg]) hu
    · have hb : ¬ jsTrim p.view.englishText = "" := fun hb => hg (Or.inl hb)
      have hp : p.view.playingEnglish = false := by
        cases hq : p.view.playingEnglish
        · rfl
        · exact absurd (Or.inr hq) hg
      by_cases hc : h.speechSynthesis = true
      · have hstart : handlePlayEnglish h p =
            { p with view := { p.view with playingEnglish := true },
                     utterances := p.utterances ++
                       [Utterance.mk p.view.englishText "en-US" (.lit (9 / 10))] } := by
          simp [handlePlayEnglish, JSVal.truthy, hb, hp, hc]
        rw [hstart]
        exact ⟨rfl, handlePlayEnglish_guard h _ (Or.inr rfl)⟩
      · exact absurd (by simp [handlePlayEnglish, JSVal.truthy, hb, hp, hc]) hu

theorem playback_single_flight_witness :
    playingPage.view.playingAudio = true ∧
    (handlePlayAudio_begin stubHost playingPage).1 = playingPage ∧
    (handlePlayAudio_begin stubHost playingPage).2.1 = none ∧
    (handlePlayAudio_begin stubHost shownPage).2.1 = some "शुभ प्रभात" ∧
    (handlePlayAudio_begin stubHost (handlePlayAudio_begin stubHost shownPage).1).2.1 = none ∧
    (handlePlayEnglish stubHost shownPage).utterances ≠ shownPage.utterances ∧
    handlePlayEnglish stubHost (handlePlayEnglish stubHost shownPage)
      = handlePlayEnglish stubHost shownPage :=
  ⟨rfl, ((playback_single_flight stubHost playingPage).1 rfl).1,
    ((playback_single_flight stubHost playingPage).1 rfl).2,
    by decide,
    ((playback_single_flight stubHost shownPage).2.2.2.2.1 "शुभ प्रभात" (by decide)).2.2,
    by decide!,
    ((playback_single_flight stubHost shownPage).2.2.2.2.2 (by decide!)).2⟩

/-- C20 does not hold of the code.  Play Audio is clicked, the synthesised audio arrives,
`audio.play()` is called and the promise it returns is rejected with no event dispatched:
`playingAudio` stays true, the object URL is not revoked, and every later `handlePlayAudio`
is a no-op.  On the other paths the channel is released: the `ended` and the `error` event
clear the flag and revoke the URL, and a failed synthesis request clears the flag with no
URL created. -/
theorem play_rejection_leaves_channel_busy :
    (handlePlayAudio_begin stubHost shownPage).2.1 = some "शुभ प्रभात" ∧
    playingPage.view.playingAudio = true ∧
    playingPage.objectUrls = [false] ∧
    (playbackDelivered 0 .playRejected playingPage).view.playingAudio = true ∧
    (playbackDelivered 0 .playRejected playingPage).objectUrls = [false] ∧
    (handlePlayAudio_begin stubHost (playbackDelivered 0 .playRejected playingPage)).2.1
      = none ∧
    (playbackDelivered 0 .ended playingPage).view.playingAudio = false ∧
    (playbackDelivered 0 .ended playingPage).objectUrls = [true] ∧
    (playbackDelivered 0 .error playingPage).view.playingAudio = false ∧
    (playbackDelivered 0 .error playingPage).objectUrls = [true] ∧
    (handlePlayAudio_resume stubHost (.rejected networkError)
      (handlePlayAudio_begin stubHost shownPage).1).1.view.playingAudio = false ∧
    (handlePlayAudio_resume stubHost (.rejected networkError)
      (handlePlayAudio_begin stubHost shownPage).1).1.objectUrls = [] := by
  decide

/-! ## Independence of the playback channels; the model of a request -/

/-- C21: the two playback channels are independent of each other and of submission and
capture.  Every step of `handlePlayAudio` (its start, its continuation, the events of the
audio element) gives the same result whatever `playingEnglish` is and leaves that flag as it
was; `handlePlayEnglish` and the handlers of its utterance do the same with `playingAudio`;
`handleTranslate`, the `disabled` state of its button and `toggleRecording` give the same
result whatever the two playback flags are and leave both as they were. -/
theorem playback_channels_independent (h : Host) (a b : Bool) :
    (∀ p : Page,
      handlePlayAudio_begin h (p.withPlayingEnglish b) =
        ((handlePlayAudio_begin h p).1.withPlayingEnglish b,
          (handlePlayAudio_begin h p).2)) ∧
    (∀ (o : TtsOutcome) (p : Page),
      handlePlayAudio_resume h o (p.withPlayingEnglish b) =
        ((handlePlayAudio_resume h o p).1.withPlayingEnglish b,
          (handlePlayAudio_resume h o p).2)) ∧
    (∀ (url : ℕ) (o : PlaybackOutcome) (p : Page),
      playbackDelivered url o (p.withPlayingEnglish b) =
        (playbackDelivered url o p).withPlayingEnglish b) ∧
    (∀ p : Page,
      handlePlayEnglish h (p.withPlayingAudio a) =
        (handlePlayEnglish h p).withPlayingAudio a) ∧
    (∀ p : Page,
      utterance_onend (p.withPlayingAudio a) = (utterance_onend p).withPlayingAudio a ∧
      utterance_onerror (p.withPlayingAudio a) = (utterance_onerror p).withPlayingAudio a) ∧
    (∀ v : View,
      handleTranslate_begin (v.withPlayback a b) =
        ((handleTranslate_begin v).1.withPlayback a b, (handleTranslate_begin v).2) ∧
      translateDisabled (v.withPlayback a b) = translateDisabled v) ∧
    (∀ (o : Outcome) (v : View),
      (handleTranslate h o (v.withPlayback a b)).view
        = (handleTranslate h o v).view.withPlayback a b ∧
      (handleTranslate h o (v.withPlayback a b)).calls = (handleTranslate h o v).calls) ∧
    (∀ p : Page,
      toggleRecording h ((p.withPlayingAudio a).withPlayingEnglish b) =
        ((toggleRecording h p).withPlayingAudio a).withPlayingEnglish b) := by
  refine ⟨?_, ?_, ?_, ?_, ?_, ?_, ?_, ?_⟩
  · intro p
    cases hh : p.view.hindiText with
    | str s =>
      have hh2 : (p.withPlayingEnglish b).view.hindiText = .str s := hh
      rw [handlePlayAudio_begin_str h p s hh, handlePlayAudio_begin_str h _ s hh2]
      by_cases hg : jsTrim s = "" ∨ p.view.playingAudio = true
      · have hg2 : jsTrim s = "" ∨ (p.withPlayingEnglish b).view.playingAudio = true := hg
        rw [if_pos hg, if_pos hg2]
      · have hg2 : ¬ (jsTrim s = "" ∨ (p.withPlayingEnglish b).view.playingAudio = true) := hg
        rw [if_neg hg, if_neg hg2]
        rfl
    | _ => simp [handlePlayAudio_begin, Page.withPlayingEnglish, hh]
  · intro o p
    cases o with
    | fulfilled => rfl
    | rejected e =>
      cases hm : e.getProp h .message <;>
        simp [handlePlayAudio_resume, Page.withPlayingEnglish, hm]
  · intro url o p
    cases o <;> rfl
  · intro p
    unfold handlePlayEnglish Page.withPlayingAudio
    simp only
    split
    · rfl
    · split <;> rfl
  · intro p
    exact ⟨rfl, rfl⟩
  · intro v
    refine ⟨?_, rfl⟩
    unfold handleTranslate_begin View.withPlayback
    simp only
    split <;> rfl
  · intro o v
    by_cases hb : jsTrim v.englishText = ""
    · have hb2 : jsTrim (v.withPlayback a b).englishText = "" := hb
      simp [handleTranslate, handleTranslate_begin_blank v hb,
        handleTranslate_begin_blank _ hb2]
    · have hb2 : jsTrim (v.withPlayback a b).englishText ≠ "" := hb
      rw [handleTranslate_nonblank h o v hb, handleTranslate_nonblank h o _ hb2]
      refine ⟨?_, rfl⟩
      exact handleTranslate_resume_playback h a b v.selectedModel o
        { v with loading := true, hindiText := .str "", bleuScore := .null,
                 meteorScore := .null }
  · intro p
    cases hrec : p.view.recording with
    | true =>
      cases hr : p.recognitionRef <;>
        simp [toggleRecording, stopRecording, Page.withPlayingAudio, Page.withPlayingEnglish,
          hrec, hr]
    | false =>
      cases hc : h.speechRecognition <;>
        simp [toggleRecording, startRecording, Page.withPlayingAudio,
          Page.withPlayingEnglish, hrec, hc]


/-- C22, as stated, fails: with a models response that supplies `m2m` only, and with one
that supplies no model, a translation submitted without touching the selector is requested
for `nllb`, which is not in the supplied set. -/
theorem default_model_not_in_supplied_set :
    suppliedModels stubHost (.fulfilled m2mOnly) = ["m2m"] ∧
    formSession stubHost [] (.fulfilled m2mOnly)
      [.edit "Hello world", .translate (.fulfilled stubResponse)]
      = some [TranslateCall.mk "Hello world" "nllb"] ∧
    "nllb" ∉ suppliedModels stubHost (.fulfilled m2mOnly) ∧
    suppliedModels stubHost (.fulfilled (.obj [("models", .obj [])])) = [] ∧
    formSession stubHost [] (.fulfilled (.obj [("models", .obj [])]))
      [.edit "Hello world", .translate (.fulfilled stubResponse)]
      = some [TranslateCall.mk "Hello world" "nllb"] := by
  decide

/-- C22, amended: every translate request carries the model selected at that moment, which
is the default `nllb` until the user picks an option of the selector, whose options are the
model ids of the models response.  So over the whole life of a mounted component every
request carries `nllb` or a supplied model id, and a supplied id whenever the supplied set
contains `nllb`. -/
theorem request_model_default_or_supplied (h : Host) (before after : List UiEvent)
    (models : Outcome) (calls : List TranslateCall)
    (hs : formSession h before models after = some calls) :
    (∀ c ∈ calls, c.model = "nllb" ∨ c.model ∈ suppliedModels h models) ∧
    ("nllb" ∈ suppliedModels h models → ∀ c ∈ calls, c.model ∈ suppliedModels h models) ∧
    (∀ (o : Outcome) (v : View), ∀ c ∈ (handleTranslate h o v).calls,
      c.model = v.selectedModel) := by
  have main : ∀ c ∈ calls, c.model = "nllb" ∨ c.model ∈ suppliedModels h models := by
    unfold formSession at hs
    cases hb : uiRun h before View.initial with
    | none => simp [hb] at hs
    | some r =>
      obtain ⟨v1, c1⟩ := r
      cases ha : uiRun h after (loadModels_resume h models v1) with
      | none => simp [hb, ha] at hs
      | some r2 =>
        obtain ⟨v2, c2⟩ := r2
        simp only [hb, ha, Option.some.injEq] at hs
        subst hs
        obtain ⟨b1, b2, b3⟩ := uiRun_models h [] before View.initial v1 c1 rfl (Or.inl rfl) hb
        have b2nllb : v1.selectedModel = "nllb" := by
          rcases b2 with hx | hx
          · exact hx
          · simp at hx
        obtain ⟨l1, l2⟩ := loadModels_resume_models h models v1 b1
        obtain ⟨a1, a2, a3⟩ := uiRun_models h (suppliedModels h models) after
          (loadModels_resume h models v1) v2 c2 l1 (Or.inl (l2.trans b2nllb)) ha
        intro c hc
        rcases List.mem_append.mp hc with hc | hc
        · rcases b3 c hc with hx | hx
          · exact Or.inl hx
          · simp at hx
        · exact a3 c hc
  refine ⟨main, ?_, fun o v => (handleTranslate_frame h o v).2.2⟩
  intro hn c hc
  rcases main c hc with hx | hx
  · rw [hx]; exact hn
  · exact hx

theorem request_model_default_or_supplied_witness :
    formSession stubHost [] (.fulfilled m2mOnly)
      [.edit "Hello world", .select "m2m", .translate (.fulfilled stubResponse)]
      = some [TranslateCall.mk "Hello world" "m2m"] ∧
    ∀ c ∈ [TranslateCall.mk "Hello world" "m2m"],
      c.model = "nllb" ∨ c.model ∈ suppliedModels stubHost (.fulfilled m2mOnly) :=
  ⟨by decide,
    (request_model_default_or_supplied stubHost [] [.edit "Hello world", .select "m2m",
      .translate (.fulfilled stubResponse)] (.fulfilled m2mOnly) _ (by decide)).1⟩


/-- C24: when a translate attempt ends in an error (a rejection, a body that is `null`, or
a response with a truthy `error`), `handleTranslate` leaves the elapsed time and the model
used exactly as they were, so the stats row, rendered when `timeTaken > 0`, keeps showing
the values of the previous translation next to the error text; this holds from whatever
state the component is in when the call settles. -/
theorem handleTranslate_error_keeps_stats (h : Host) (o : Outcome) (v : View)
    (herr : (∃ e, o = .rejected e) ∨
      (∃ data, o = .fulfilled data ∧ (data = .undefined ∨ data = .null)) ∨
      (∃ data err, o = .fulfilled data ∧ data.getProp h .error = .ok err ∧
        err.truthy = true)) :
    (handleTranslate h o v).view.timeTaken = v.timeTaken ∧
    (handleTranslate h o v).view.modelUsed = v.modelUsed ∧
    statsShown h (handleTranslate h o v).view = statsShown h v ∧
    ∀ (sel : String) (cur : View),
      (handleTranslate_resume h sel o cur).1.timeTaken = cur.timeTaken ∧
      (handleTranslate_resume h sel o cur).1.modelUsed = cur.modelUsed := by
  have hr := fun (sel : String) (cur : View) =>
    handleTranslate_resume_error_stats h sel o cur herr
  have hv : (handleTranslate h o v).view.timeTaken = v.timeTaken ∧
      (handleTranslate h o v).view.modelUsed = v.modelUsed := by
    by_cases hb : jsTrim v.englishText = ""
    · simp [handleTranslate, handleTranslate_begin_blank v hb]
    · rw [handleTranslate_nonblank h o v hb]
      exact hr _ _
  refine ⟨hv.1, hv.2, ?_, hr⟩
  unfold statsShown
  rw [hv.1]

theorem handleTranslate_error_keeps_stats_witness :
    shownView.timeTaken = .num (.lit (12 / 10)) ∧
    shownView.modelUsed = .str "m2m" ∧
    (handleTranslate stubHost (.fulfilled stubErrorResponse) shownView).view.hindiText
      = .str "Error: model unavailable" ∧
    (handleTranslate stubHost (.fulfilled stubErrorResponse) shownView).view.timeTaken
      = shownView.timeTaken ∧
    (handleTranslate stubHost (.rejected networkError) shownView).view.modelUsed
      = shownView.modelUsed ∧
    statsShown stubHost (handleTranslate stubHost (.rejected networkError) shownView).view
      = true :=
  ⟨rfl, rfl, by decide,
    (handleTranslate_error_keeps_stats stubHost (.fulfilled stubErrorResponse) shownView
      (Or.inr (Or.inr ⟨stubErrorResponse, .str "model unavailable", rfl, rfl, rfl⟩))).1,
    (handleTranslate_error_keeps_stats stubHost (.rejected networkError) shownView
      (Or.inl ⟨networkError, rfl⟩)).2.1,
    by decide!⟩

/-! ## The authentication stub -/

/-- C23: the authentication stub verifies no credential.  For every email and every two
passwords, `login` gives the same result: the same user object in the promise, the same
`user` state, the same entry in local storage once the effect has run, with the user
authenticated; and the promise `login` returns is never rejected. -/
theorem login_ignores_password (email : String) (p1 p2 : JSVal) (s : AuthState) :
    login email p1 s = login email p2 s ∧
    (∃ userData : User,
      (login email p1 s).2 = .resolved userData ∧
      (login email p2 s).2 = .resolved userData ∧
      (login email p1 s).1.user = some userData ∧
      (login email p2 s).1.user = some userData) ∧
    (∀ reason : JSVal, (login email p1 s).2 ≠ .rejected reason) ∧
    userEffect (login email p1 s).1 = userEffect (login email p2 s).1 ∧
    (userEffect (login email p1 s).1).isAuthenticated = true := by
  refine ⟨rfl, ⟨_, rfl, rfl, rfl, rfl⟩, ?_, rfl, rfl⟩
  intro reason hr
  simp [login] at hr

/-- C25: `login` derives the user from the email alone.  The role is `mentor` exactly
when the email contains the substring `mentor` or the substring `admin`, compared character
by character, and `user` exactly when it contains neither; the name is the part of the
email before its first `@`, the whole email when it has none; the email is returned as it
was given. -/
theorem login_user_from_email (email : String) (password : JSVal) (s : AuthState) :
    ∃ userData : User,
      (login email password s).2 = .resolved userData ∧
      (login email password s).1.user = some userData ∧
      userData.email = email ∧
      userData.name = beforeFirst '@' email ∧
      (userData.role = "mentor" ↔
        (ContainsSubstring email "mentor" ∨ ContainsSubstring email "admin")) ∧
      (userData.role = "user" ↔
        ¬ (ContainsSubstring email "mentor" ∨ ContainsSubstring email "admin")) ∧
      (('@' ∉ email.data) → userData.name = email) := by
  rw [login_userData]
  refine ⟨_, rfl, rfl, rfl, rfl, ?_, ?_, ?_⟩
  · rw [← jsIncludes_iff, ← jsIncludes_iff]
    by_cases h1 : jsIncludes email "mentor" = true <;>
      by_cases h2 : jsIncludes email "admin" = true <;> simp [h1, h2]
  · rw [← jsIncludes_iff, ← jsIncludes_iff]
    by_cases h1 : jsIncludes email "mentor" = true <;>
      by_cases h2 : jsIncludes email "admin" = true <;> simp [h1, h2]
  · intro hno
    unfold beforeFirst
    apply String.ext
    simp only
    rw [List.takeWhile_eq_self_iff]
    intro x hx
    simp only [ne_eq, decide_eq_true_eq]
    intro hxe
    exact hno (hxe ▸ hx)

theorem login_user_from_email_witness :
    (login "asha.mentor@uni.edu" (.str "pw") ⟨none, false, none⟩).2
      = .resolved ⟨"asha.mentor@uni.edu", "asha.mentor", "mentor"⟩ ∧
    (login "Admin@uni.edu" (.str "pw") ⟨none, false, none⟩).2
      = .resolved ⟨"Admin@uni.edu", "Admin", "user"⟩ ∧
    (login "guest" (.str "pw") ⟨none, false, none⟩).2
      = .resolved ⟨"guest", "guest", "user"⟩ ∧
    ('@' ∉ "guest".data) ∧
    ∃ userData : User,
      (login "guest" (.str "pw") ⟨none, false, none⟩).2 = .resolved userData ∧
      userData.name = "guest" :=
  ⟨by decide, by decide, by decide, by decide,
    (login_user_from_email "guest" (.str "pw") ⟨none, false, none⟩).elim
      fun u hu => ⟨u, hu.1, hu.2.2.2.2.2.2 (by decide)⟩⟩

/-! ## The history export -/

/-- C26: for every non-empty history list (of items that are not `null`), the CSV text
`handleExportCSV` offers for download is the header row `English, Hindi, Model, Time (s),
Date` followed by one row per item in list order, every cell wrapped in double quotes,
cells joined by a comma and rows by a newline.  When no cell contains a double quote or a
newline, splitting the text on newlines, taking the outer quotes off each line and
splitting it on the separator `","` gives back the header and the five fields of each
item.  For an empty history there is an alert and no download. -/
theorem handleExportCSV_text (h : Host) (now : String) (history : List JSVal)
    (hne : history ≠ [])
    (hitems : ∀ item ∈ history, item ≠ .undefined ∧ item ≠ .null) :
    ∃ csv : String,
      (handleExportCSV h now history).downloads =
        [("translation_history_" ++ (jsSplit "T" now).headD "" ++ ".csv", csv)] ∧
      (handleExportCSV h now history).alerts = [] ∧
      (handleExportCSV h now history).escaped = none ∧
      csv = String.intercalate "\n"
        ((["English", "Hindi", "Model", "Time (s)", "Date"] ::
            history.map (historyCells h)).map
          fun row => String.intercalate "," (row.map quoted)) ∧
      ((∀ item ∈ history, ∀ cell ∈ historyCells h item,
          '"' ∉ cell.data ∧ '\n' ∉ cell.data) →
        readCsv csv =
          ["English", "Hindi", "Model", "Time (s)", "Date"] ::
            history.map (historyCells h)) ∧
      (handleExportCSV h now []).downloads = [] ∧
      (handleExportCSV h now []).alerts = ["No history to export"] ∧
      (handleExportCSV h now []).escaped = none := by
  have hlen : ¬ history.length = 0 := by
    intro h0
    exact hne (List.length_eq_zero.mp h0)
  have htable : (csvHeader :: history.map fun item =>
        [item.field .english, item.field .hindi, item.field .model, item.field .time_taken,
          item.field .timestamp]).map (fun row => row.map (JSVal.toStr h))
      = ["English", "Hindi", "Model", "Time (s)", "Date"] :: history.map (historyCells h) := by
    simp [csvHeader, JSVal.toStr, historyCells, List.map_map, Function.comp_def]
  refine ⟨csvText h (history.map fun item =>
      [item.field .english, item.field .hindi, item.field .model, item.field .time_taken,
        item.field .timestamp]), ?_, ?_, ?_, ?_, ?_, rfl, rfl, rfl⟩
  · simp [handleExportCSV, hlen, historyRows_ok h history hitems]
  · simp [handleExportCSV, hlen, historyRows_ok h history hitems]
  · simp [handleExportCSV, hlen, historyRows_ok h history hitems]
  · rw [csvText_eq, htable, jsJoin_eq_intercalate]
    congr 1
    apply List.map_congr_left
    intro row _
    exact jsJoin_eq_intercalate _ _
  · intro hclean
    rw [csvText_eq, htable]
    apply readCsv_table
    · simp
    · intro row hrow
      rcases List.mem_cons.mp hrow with rfl | hmem
      · simp
      · obtain ⟨item, _, rfl⟩ := List.mem_map.mp hmem
        simp [historyCells]
    · intro row hrow cell hcell
      rcases List.mem_cons.mp hrow with rfl | hmem
      · revert cell
        decide
      · obtain ⟨item, hitem, rfl⟩ := List.mem_map.mp hmem
        exact hclean item hitem cell hcell


theorem handleExportCSV_text_witness :
    [historyItem] ≠ [] ∧
    (∀ item ∈ [historyItem], item ≠ .undefined ∧ item ≠ .null) ∧
    (∀ item ∈ [historyItem], ∀ cell ∈ historyCells stubHost item,
      '"' ∉ cell.data ∧ '\n' ∉ cell.data) ∧
    ∃ csv : String,
      (handleExportCSV stubHost "2026-11-06T10:15:00.000Z" [historyItem]).downloads =
        [("translation_history_" ++ (jsSplit "T" "2026-11-06T10:15:00.000Z").headD "" ++ ".csv",
          csv)] ∧
      readCsv csv =
        ["English", "Hindi", "Model", "Time (s)", "Date"] ::
          [historyItem].map (historyCells stubHost) :=
  ⟨by decide, by decide, by decide,
    (handleExportCSV_text stubHost "2026-11-06T10:15:00.000Z" [historyItem] (by decide)
      (by decide)).elim fun csv hc => ⟨csv, hc.1, hc.2.2.2.2.1 (by decide)⟩⟩

end Translator
